import Mathlib

/-
Verification of the AstroWound-MEASURE calibration-and-measurement core.

Shallow embedding of the TypeScript source:
  * src/engine/calibration.ts   (CalibrationEngine)
  * src/engine/quality.ts       (QualityCheckEngine)
  * the measurement engine      (MeasurementEngine)

Conventions used throughout:
  * JavaScript numbers are embedded as exact arithmetic: rational (ℚ) wherever
    the source only adds, subtracts, multiplies, divides, compares and rounds,
    and real (ℝ) where Math.sqrt / Math.atan2 / Math.cos / Math.sin appear.
  * Math.round rounds half toward positive infinity, i.e. round x = ⌊x + 1/2⌋.
  * The one place where the source can produce NaN that a claim is about
    (the Laplacian-variance blur score) is embedded with an Option type,
    none standing for NaN.
  * Stateful engine classes hold only their thresholds; methods are embedded
    as functions taking the thresholds record explicitly.
-/

namespace WoundDim

/-- Round half up, the behaviour of JavaScript Math.round. -/
def jsRound (q : ℚ) : ℤ := ⌊q + 1/2⌋

/-- MeasurementEngine.round(value, decimals): Math.round(value * 10^d) / 10^d,
at rational type. -/
def roundTo (value : ℚ) (decimals : ℕ) : ℚ :=
  (jsRound (value * 10 ^ decimals) : ℚ) / 10 ^ decimals

/-- A pixel-coordinate point (interface Point of src/types), with exact
rational coordinates. -/
structure Point where
  x : ℚ
  y : ℚ
deriving DecidableEq, Repr

/-- MeasurementEngine.crossProduct: cross product of vectors p1→p2 and p1→p3. -/
def crossProduct (p1 p2 p3 : Point) : ℚ :=
  (p2.x - p1.x) * (p3.y - p1.y) - (p2.y - p1.y) * (p3.x - p1.x)

/-- Strict lexicographic order used by the lowest-point loop of
MeasurementEngine.convexHull: smaller y first, ties broken by smaller x. -/
def lexLt (a b : Point) : Prop := a.y < b.y ∨ (a.y = b.y ∧ a.x < b.x)

instance (a b : Point) : Decidable (lexLt a b) := by
  unfold lexLt; infer_instance

/-- The lowest-point search loop of MeasurementEngine.convexHull: the index of
the first point that is minimal for lexLt.  The source iterates i = 1..n-1
updating on strict improvement; folding from i = 0 is identical because the
comparison of a point with itself never improves. -/
def lowestIdx (ps : List Point) : ℕ :=
  (List.range ps.length).foldl
    (fun lo i => if lexLt (ps.getD i ⟨0, 0⟩) (ps.getD lo ⟨0, 0⟩) then i else lo) 0

/-- The swap `[sorted[0], sorted[lowest]] = [sorted[lowest], sorted[0]]` of
MeasurementEngine.convexHull. -/
def swapHead (ps : List Point) (i : ℕ) : List Point :=
  (ps.set 0 (ps.getD i ⟨0, 0⟩)).set i (ps.getD 0 ⟨0, 0⟩)

/-- The inner while loop of the Graham scan of MeasurementEngine.convexHull:
pop while the stack keeps more than one point and the turn towards the
candidate c is not a strict left turn (cross ≤ 0).  The stack is kept
top-first. -/
def popWhile (c : Point) : List Point → List Point
  | [] => []
  | b :: tail =>
    match tail with
    | [] => [b]
    | a :: _ => if crossProduct a b c ≤ 0 then popWhile c tail else b :: tail

/-- The outer for loop of the Graham scan: process every remaining candidate,
popping then pushing.  The stack is kept top-first. -/
def scanLoop (stack : List Point) : List Point → List Point
  | [] => stack
  | c :: rest => scanLoop (c :: popWhile c stack) rest

/-- MeasurementEngine.convexHull.  Faithful to the source, including its
slip: the polar-angle comparator is applied to the fresh array produced by
`sorted.slice(1)` and that sorted copy is discarded, so the points after the
swapped-in anchor keep their original order; no angle computation is
embedded because its result is dead.  The scan stack is built top-first and
reversed at the end to give the hull in the source's push order. -/
def convexHull (points : List Point) : List Point :=
  if points.length < 3 then points
  else
    match swapHead points (lowestIdx points) with
    | p0 :: p1 :: rest => (scanLoop [p1, p0] rest).reverse
    | l => l

/-- Marker kinds of CalibrationData.markerType (src/types). -/
inductive MarkerType where
  | ruler | circle | qr | grid
deriving DecidableEq, Repr

/-- CalibrationData (src/types): result of scale detection or manual
calibration.  pixelsPerCm and confidence are embedded at ℝ because the
detection paths compute them with Math.sqrt. -/
structure CalibrationData where
  detected : Bool
  pixelsPerCm : ℝ
  confidence : ℝ
  markerType : MarkerType
  referencePoints : List Point

/-- An ImageData value: width, height and flat RGBA bytes in row-major
order, pixel i occupying data[4*i .. 4*i+3]. -/
structure ImageBuffer where
  width : ℕ
  height : ℕ
  data : List ℕ

/-- SegmentationResult (src/types), restricted to the fields the measurement
engine reads: the mask and the boundary contour. -/
structure SegmentationResult where
  mask : ImageBuffer
  contour : List Point

/-- WoundMeasurement (src/types): outputs of calculateMeasurements, in cm
units.  depth and volume are absent (undefined) unless appended later. -/
structure WoundMeasurement where
  area : ℝ
  length : ℝ
  width : ℝ
  perimeter : ℝ
  depth : Option ℝ := none
  volume : Option ℝ := none

noncomputable section

/-- Round half up at real type (JavaScript Math.round). -/
def jsRoundR (x : ℝ) : ℤ := ⌊x + 1/2⌋

/-- MeasurementEngine.round(value, decimals) at real type. -/
def roundToR (value : ℝ) (decimals : ℕ) : ℝ :=
  (jsRoundR (value * 10 ^ decimals) : ℝ) / 10 ^ decimals

end

/-- MeasurementEngine.calculateAreaFromMask: the number of pixels whose red
channel exceeds 127. -/
def calculateAreaFromMask (mask : ImageBuffer) : ℕ :=
  ((List.range (mask.width * mask.height)).filter
    (fun i => 127 < mask.data.getD (i * 4) 0)).length

noncomputable section

/-- MeasurementEngine.calculatePerimeter: sum of Euclidean distances between
consecutive contour points, the contour treated as closed; 0 for fewer than
3 points. -/
def calculatePerimeter (contour : List Point) : ℝ :=
  if contour.length < 3 then 0
  else
    Finset.sum (Finset.range contour.length) fun i =>
      let current := contour.getD i ⟨0, 0⟩
      let next := contour.getD ((i + 1) % contour.length) ⟨0, 0⟩
      Real.sqrt (((next.x - current.x : ℚ) : ℝ) ^ 2 + ((next.y - current.y : ℚ) : ℝ) ^ 2)

/-- JavaScript Math.atan2, by cases on the signs of the arguments. -/
def atan2 (y x : ℝ) : ℝ :=
  if 0 < x then Real.arctan (y / x)
  else if x < 0 ∧ 0 ≤ y then Real.arctan (y / x) + Real.pi
  else if x < 0 ∧ y < 0 then Real.arctan (y / x) - Real.pi
  else if x = 0 ∧ 0 < y then Real.pi / 2
  else if x = 0 ∧ y < 0 then -(Real.pi / 2)
  else 0

/-- A point produced by rotation, with real coordinates. -/
structure RPoint where
  x : ℝ
  y : ℝ

/-- MeasurementEngine.rotatePoint: rotate a contour point by an angle about a
center. -/
def rotatePoint (point : Point) (angle : ℝ) (center : Point) : RPoint :=
  let cos := Real.cos angle
  let sin := Real.sin angle
  let dx : ℝ := ((point.x - center.x : ℚ) : ℝ)
  let dy : ℝ := ((point.y - center.y : ℚ) : ℝ)
  { x := (center.x : ℝ) + dx * cos - dy * sin
    y := (center.y : ℝ) + dx * sin + dy * cos }

/-- The rectangle tracked by MeasurementEngine.minAreaRect. -/
structure RectWH where
  width : ℝ
  height : ℝ
  angle : ℝ

/-- The bounding box of hull points rotated by the negative of the angle of
edge i, about hull[0]: one candidate rectangle of the rotating-calipers loop.
The source initialises the min/max scans with ±Infinity; folding min (resp.
max) over the whole nonempty list starting from its first element computes
the same bounds. -/
def rectCandidate (hull : List Point) (i : ℕ) : RectWH :=
  let p1 := hull.getD i ⟨0, 0⟩
  let p2 := hull.getD ((i + 1) % hull.length) ⟨0, 0⟩
  let angle := atan2 ((p2.y - p1.y : ℚ) : ℝ) ((p2.x - p1.x : ℚ) : ℝ)
  let rotated := hull.map (fun p => rotatePoint p (-angle) (hull.getD 0 ⟨0, 0⟩))
  let xs := rotated.map RPoint.x
  let ys := rotated.map RPoint.y
  let minX := xs.foldl min (xs.headD 0)
  let maxX := xs.foldl max (xs.headD 0)
  let minY := ys.foldl min (ys.headD 0)
  let maxY := ys.foldl max (ys.headD 0)
  { width := maxX - minX, height := maxY - minY, angle := angle }

/-- One iteration of minAreaRect's loop: keep the accumulated (minArea,
bestRect) unless candidate i has strictly smaller area.  The accumulator
none stands for the initial minArea = Infinity (a first real candidate
always beats it). -/
def minAreaStep (hull : List Point) (acc : Option (ℝ × RectWH)) (i : ℕ) :
    Option (ℝ × RectWH) :=
  let rect := rectCandidate hull i
  let area := rect.width * rect.height
  match acc with
  | none => some (area, rect)
  | some (minArea, bestRect) =>
    if area < minArea then some (area, rect) else some (minArea, bestRect)

/-- MeasurementEngine.minAreaRect: try each hull edge as rectangle base and
keep the candidate of smallest area. -/
def minAreaRect (hull : List Point) : RectWH :=
  if hull.length < 3 then ⟨0, 0, 0⟩
  else
    match (List.range hull.length).foldl (minAreaStep hull) none with
    | some (_, rect) => rect
    | none => ⟨0, 0, 0⟩

/-- MeasurementEngine.calculateLengthWidth: max and min side of the
minimum-area bounding rectangle of the contour's (computed) convex hull;
(0, 0) for fewer than 3 contour points. -/
def calculateLengthWidth (contour : List Point) : ℝ × ℝ :=
  if contour.length < 3 then (0, 0)
  else
    let hull := convexHull contour
    let minRect := minAreaRect hull
    (max minRect.width minRect.height, min minRect.width minRect.height)

/-- MeasurementEngine.calculateMeasurements: fails unless the calibration is
detected with a positive scale, otherwise converts pixel geometry to cm.
The thrown Error is embedded as Except.error of its message. -/
def calculateMeasurements (segmentation : SegmentationResult)
    (calibration : CalibrationData) : Except String WoundMeasurement :=
  if calibration.detected = false ∨ calibration.pixelsPerCm ≤ 0 then
    .error "Valid calibration required for measurement"
  else
    let pixelsPerCm := calibration.pixelsPerCm
    let pixelsPerCmSquared := pixelsPerCm * pixelsPerCm
    let areaPixels : ℝ := (calculateAreaFromMask segmentation.mask : ℝ)
    let area := areaPixels / pixelsPerCmSquared
    let perimeterPixels := calculatePerimeter segmentation.contour
    let perimeter := perimeterPixels / pixelsPerCm
    let lw := calculateLengthWidth segmentation.contour
    let length := lw.1 / pixelsPerCm
    let width := lw.2 / pixelsPerCm
    .ok { area := roundToR area 2
          length := roundToR length 2
          width := roundToR width 2
          perimeter := roundToR perimeter 2 }

/-- MeasurementEngine.calculateVolume: empirical wound-volume estimate. -/
def calculateVolume (area depth : ℝ) : ℝ :=
  roundToR (0.327 * area * depth) 2

end

/-! CalibrationEngine (src/engine/calibration.ts).  The image-processing front
ends (Sobel edges, Hough transforms, Harris corners) produce intermediate
values — lines, circle candidates, corner points — that the decision logic
consumes; the decision logic is embedded as functions of those
intermediates. -/

/-- CALIBRATION_SPECS.ruler.tickSpacingCm. -/
def rulerTickSpacingCm : ℚ := 1

/-- CALIBRATION_SPECS.ruler.minTickCount. -/
def rulerMinTickCount : ℕ := 5

/-- CALIBRATION_SPECS.circle.diameterCm. -/
def circleDiameterCm : ℚ := 2.5

/-- CALIBRATION_SPECS.grid.cellSizeCm. -/
def gridCellSizeCm : ℚ := 1

/-- CALIBRATION_SPECS.grid.minCells. -/
def gridMinCells : ℕ := 4

/-- A line found by CalibrationEngine.houghLineTransform. -/
structure HoughLine where
  rho : ℝ
  theta : ℝ
  votes : ℕ

/-- A circle candidate found by CalibrationEngine.houghCircleTransform.  The
center coordinates are Math.round outputs and the candidate radii are
rational combinations of the image dimensions, so both are embedded at ℚ;
the circularity involves π and stays real. -/
structure HoughCircle where
  centerX : ℚ
  centerY : ℚ
  radius : ℚ
  circularity : ℝ

/-- CalibrationEngine.createFailedCalibration. -/
def createFailedCalibration (markerType : MarkerType) : CalibrationData :=
  { detected := false
    pixelsPerCm := 0
    confidence := 0
    markerType := markerType
    referencePoints := [] }

noncomputable section

/-- Euclidean distance sqrt(dx*dx + dy*dy) between two points, as computed
throughout the source. -/
def distPx (q p : Point) : ℝ :=
  Real.sqrt (((q.x - p.x : ℚ) : ℝ) ^ 2 + ((q.y - p.y : ℚ) : ℝ) ^ 2)

/-- The list of distances between consecutive points, built by the spacing
loops of calculateAverageSpacing, calculateTickConfidence and
checkPerspective. -/
def consecutiveSpacings (points : List Point) : List ℝ :=
  (List.range (points.length - 1)).map fun i =>
    distPx (points.getD (i + 1) ⟨0, 0⟩) (points.getD i ⟨0, 0⟩)

/-- CalibrationEngine.calculateAverageSpacing. -/
def calculateAverageSpacing (points : List Point) : ℝ :=
  if points.length < 2 then 0
  else (consecutiveSpacings points).sum / ((points.length : ℝ) - 1)

/-- CalibrationEngine.calculateTickConfidence: confidence max(0, 1 - 2*cv)
from the coefficient of variation of the tick spacings. -/
def calculateTickConfidence (ticks : List Point) : ℝ :=
  if ticks.length < 3 then 0
  else
    let spacings := consecutiveSpacings ticks
    let mean := spacings.sum / (spacings.length : ℝ)
    let variance := (spacings.map (fun s => (s - mean) ^ 2)).sum / (spacings.length : ℝ)
    let stdDev := Real.sqrt variance
    let cv := stdDev / mean
    max 0 (1 - cv * 2)

/-- CalibrationEngine.detectRuler after its Hough / parallel-line / tick-mark
stages: the decision logic, as a function of the parallel-line cluster and
the detected tick marks. -/
def detectRulerFrom (parallelLines : List HoughLine) (ticks : List Point) :
    CalibrationData :=
  if parallelLines.length < 2 then createFailedCalibration .ruler
  else if ticks.length < rulerMinTickCount then createFailedCalibration .ruler
  else
    let avgTickSpacing := calculateAverageSpacing ticks
    let pixelsPerCm := avgTickSpacing / (rulerTickSpacingCm : ℝ)
    { detected := true
      pixelsPerCm := pixelsPerCm
      confidence := calculateTickConfidence ticks
      markerType := .ruler
      referencePoints := ticks }

/-- CalibrationEngine.detectCircle after its Hough-circle stage: the decision
logic, as a function of the circle candidates. -/
def detectCircleFrom (circles : List HoughCircle) : CalibrationData :=
  match circles with
  | [] => createFailedCalibration .circle
  | c :: rest =>
    let bestCircle := rest.foldl (fun a b => if a.circularity > b.circularity then a else b) c
    let diameterPixels : ℚ := bestCircle.radius * 2
    { detected := true
      pixelsPerCm := ((diameterPixels / circleDiameterCm : ℚ) : ℝ)
      confidence := bestCircle.circularity
      markerType := .circle
      referencePoints := [⟨bestCircle.centerX, bestCircle.centerY⟩,
                          ⟨bestCircle.centerX + bestCircle.radius, bestCircle.centerY⟩] }

end

/-- Comparison used by CalibrationEngine.findGridPattern's sort: ascending x,
ties by ascending y (the comparator a.x - b.x || a.y - b.y). -/
def gridLe (a b : Point) : Prop := a.x < b.x ∨ (a.x = b.x ∧ a.y ≤ b.y)

instance (a b : Point) : Decidable (gridLe a b) := by
  unfold gridLe; infer_instance

/-- Stable insertion into a list sorted by gridLe: a later element goes after
equal keys, as with JavaScript's stable Array.prototype.sort. -/
def gridInsert (a : Point) : List Point → List Point
  | [] => [a]
  | b :: rest => if gridLe b a then b :: gridInsert a rest else a :: b :: rest

/-- Stable sort by gridLe. -/
def gridSort : List Point → List Point
  | [] => []
  | a :: rest => gridInsert a (gridSort rest)

/-- CalibrationEngine.findGridPattern: fewer than 4 corners give [],
otherwise the corners sorted by (x, y); the spacing lists it builds are
dead code and the sorted corners are returned unfiltered. -/
def findGridPattern (corners : List Point) : List Point :=
  if corners.length < 4 then [] else gridSort corners

/-- Ascending insertion for rational spacing values. -/
def ratInsert (a : ℚ) : List ℚ → List ℚ
  | [] => [a]
  | b :: rest => if b ≤ a then b :: ratInsert a rest else a :: b :: rest

/-- Ascending sort for rational spacing values. -/
def ratSort : List ℚ → List ℚ
  | [] => []
  | a :: rest => ratInsert a (ratSort rest)

/-- CalibrationEngine.calculateGridCellSize: collect consecutive coordinate
gaps larger than 5 (x gaps and y gaps, in loop order), sort them and take
the middle element; the JavaScript `|| 0` fallback yields 0 when the spacing
list is empty. -/
def calculateGridCellSize (gridPoints : List Point) : ℚ :=
  let spacings := (List.range (gridPoints.length - 1)).flatMap fun i =>
    let dx := |(gridPoints.getD (i + 1) ⟨0, 0⟩).x - (gridPoints.getD i ⟨0, 0⟩).x|
    let dy := |(gridPoints.getD (i + 1) ⟨0, 0⟩).y - (gridPoints.getD i ⟨0, 0⟩).y|
    (if 5 < dx then [dx] else []) ++ (if 5 < dy then [dy] else [])
  (ratSort spacings).getD (spacings.length / 2) 0

noncomputable section

/-- CalibrationEngine.calculateGridConfidence. -/
def calculateGridConfidence (gridPoints : List Point) : ℝ :=
  if gridPoints.length < 4 then 0
  else min 1 ((gridPoints.length : ℝ) / 20)

/-- CalibrationEngine.detectGrid after its Harris-corner stage: the decision
logic, as a function of the detected corners. -/
def detectGridFrom (corners : List Point) : CalibrationData :=
  let gridPoints := findGridPattern corners
  if gridPoints.length < gridMinCells * 4 then createFailedCalibration .grid
  else
    let cellSizePixels := calculateGridCellSize gridPoints
    { detected := true
      pixelsPerCm := ((cellSizePixels / gridCellSizeCm : ℚ) : ℝ)
      confidence := calculateGridConfidence gridPoints
      markerType := .grid
      referencePoints := gridPoints }

/-- The combining function (a, b) => a.confidence > b.confidence ? a : b of
the results.reduce fallback in CalibrationEngine.detectCalibration. -/
def confReduceStep (a b : CalibrationData) : CalibrationData :=
  if b.confidence < a.confidence then a else b

/-- CalibrationEngine.detectCalibration, as a function of the three
hypothesis results it tries in order: accept the first detected result with
confidence above 0.8, otherwise reduce to the highest-confidence result. -/
def detectCalibration (rulerResult circleResult gridResult : CalibrationData) :
    CalibrationData :=
  if rulerResult.detected = true ∧ 0.8 < rulerResult.confidence then rulerResult
  else if circleResult.detected = true ∧ 0.8 < circleResult.confidence then circleResult
  else if gridResult.detected = true ∧ 0.8 < gridResult.confidence then gridResult
  else confReduceStep (confReduceStep rulerResult circleResult) gridResult

/-- CalibrationEngine.manualCalibration: scale from two points a known
distance apart; always detected with confidence 1. -/
def manualCalibration (point1 point2 : Point) (distanceCm : ℚ) : CalibrationData :=
  let distancePixels := distPx point2 point1
  { detected := true
    pixelsPerCm := distancePixels / (distanceCm : ℝ)
    confidence := 1.0
    markerType := .ruler
    referencePoints := [point1, point2] }

end

/-! QualityCheckEngine (src/engine/quality.ts).  Blur and lighting are exact
rational computations except that the blur score can be NaN: JavaScript
float values on the blur path are embedded as Option ℚ, none standing for
NaN. -/

/-- QualityThresholds with its defaults. -/
structure QualityThresholds where
  minBlurScore : ℚ
  minLightingScore : ℚ
  minCalibrationConfidence : ℚ
  maxPerspectiveDistortion : ℚ

/-- DEFAULT_THRESHOLDS of src/engine/quality.ts. -/
def defaultThresholds : QualityThresholds :=
  { minBlurScore := 0.7
    minLightingScore := 0.6
    minCalibrationConfidence := 0.8
    maxPerspectiveDistortion := 15 }

/-- Addition of possibly-NaN values. -/
def jadd : Option ℚ → Option ℚ → Option ℚ
  | some a, some b => some (a + b)
  | _, _ => none

/-- Subtraction of possibly-NaN values. -/
def jsub : Option ℚ → Option ℚ → Option ℚ
  | some a, some b => some (a - b)
  | _, _ => none

/-- Multiplication of possibly-NaN values. -/
def jmul : Option ℚ → Option ℚ → Option ℚ
  | some a, some b => some (a * b)
  | _, _ => none

/-- Division of possibly-NaN values.  A zero divisor gives a non-finite
JavaScript result; on the blur path the numerator is 0 whenever the divisor
is 0, so none faithfully stands for the NaN of 0/0 there. -/
def jdiv : Option ℚ → Option ℚ → Option ℚ
  | some a, some b => if b = 0 then none else some (a / b)
  | _, _ => none

/-- Math.min with a finite first argument: NaN if the second is NaN. -/
def jminC (q : ℚ) : Option ℚ → Option ℚ
  | some a => some (min q a)
  | none => none

/-- The comparison x >= t on a possibly-NaN x: false for NaN. -/
def jgeB : Option ℚ → ℚ → Bool
  | some a, t => decide (t ≤ a)
  | none, _ => false

/-- Math.round(x * 100) / 100 on a possibly-NaN x. -/
def jround100 : Option ℚ → Option ℚ
  | some a => some ((jsRound (a * 100) : ℚ) / 100)
  | none => none

/-- The grayscale luma 0.299 R + 0.587 G + 0.114 B of pixel i, computed
identically by checkBlur, checkLighting and CalibrationEngine.toGrayscale. -/
def grayscaleAt (img : ImageBuffer) (i : ℕ) : ℚ :=
  0.299 * (img.data.getD (i * 4) 0 : ℚ)
    + 0.587 * (img.data.getD (i * 4 + 1) 0 : ℚ)
    + 0.114 * (img.data.getD (i * 4 + 2) 0 : ℚ)

/-- The Laplacian response array of checkBlur at flat index idx: the 3x3
kernel [[0,1,0],[1,-4,1],[0,1,0]] applied at interior pixels (the zero
kernel entries contribute nothing and are omitted from the sum), 0 at the
1-pixel border left untouched by the loops. -/
def laplacianAt (img : ImageBuffer) (idx : ℕ) : ℚ :=
  let x := idx % img.width
  let y := idx / img.width
  if 0 < x ∧ x + 1 < img.width ∧ 0 < y ∧ y + 1 < img.height then
    grayscaleAt img ((y - 1) * img.width + x)
      + grayscaleAt img (y * img.width + (x - 1))
      + (-4) * grayscaleAt img (y * img.width + x)
      + grayscaleAt img (y * img.width + (x + 1))
      + grayscaleAt img ((y + 1) * img.width + x)
  else 0

/-- The flat indices with a nonzero Laplacian response, in loop order. -/
def nonzeroLapIdx (img : ImageBuffer) : List ℕ :=
  (List.range (img.width * img.height)).filter fun i => laplacianAt img i ≠ 0

/-- The count of nonzero Laplacian responses: the divisor of checkBlur's
mean and variance computations. -/
def nonzeroLapCount (img : ImageBuffer) : ℕ :=
  (nonzeroLapIdx img).length

/-- The blur sub-record of a QualityCheck. -/
structure BlurResult where
  score : Option ℚ
  passed : Bool
deriving DecidableEq, Repr

/-- QualityCheckEngine.checkBlur: Laplacian-variance sharpness score.  The
mean and variance are divided by the count of nonzero responses without a
guard against a zero count; Math.pow(x, 2) is embedded as x * x. -/
def checkBlur (cfg : QualityThresholds) (img : ImageBuffer) : BlurResult :=
  let count := nonzeroLapCount img
  let mean := jdiv (some ((nonzeroLapIdx img).map (laplacianAt img)).sum) (some (count : ℚ))
  let varianceSum := (nonzeroLapIdx img).foldl
    (fun acc i =>
      jadd acc (jmul (jsub (some (laplacianAt img i)) mean)
                     (jsub (some (laplacianAt img i)) mean)))
    (some 0)
  let variance := jdiv varianceSum (some (count : ℚ))
  let normalizedScore := jminC 1 (jdiv variance (some 1000))
  { score := jround100 normalizedScore
    passed := jgeB normalizedScore cfg.minBlurScore }

/-- The rounded brightness Math.round(luma) of pixel i in checkLighting. -/
def brightnessAt (img : ImageBuffer) (i : ℕ) : ℤ :=
  jsRound (grayscaleAt img i)

/-- checkLighting's totalBrightness accumulator. -/
def totalBrightness (img : ImageBuffer) : ℤ :=
  Finset.sum (Finset.range (img.width * img.height)) fun i => brightnessAt img i

/-- checkLighting's running minimum brightness, started at 255. -/
def minBrightness (img : ImageBuffer) : ℤ :=
  ((List.range (img.width * img.height)).map (brightnessAt img)).foldl min 255

/-- checkLighting's running maximum brightness, started at 0. -/
def maxBrightness (img : ImageBuffer) : ℤ :=
  ((List.range (img.width * img.height)).map (brightnessAt img)).foldl max 0

/-- checkLighting's average brightness totalBrightness / (width * height). -/
def avgBrightness (img : ImageBuffer) : ℚ :=
  (totalBrightness img : ℚ) / ((img.width * img.height : ℕ) : ℚ)

/-- checkLighting's brightness histogram: how many pixels round to
brightness b. -/
def brightnessHistogram (img : ImageBuffer) (b : ℕ) : ℕ :=
  Finset.card ((Finset.range (img.width * img.height)).filter
    (fun i => brightnessAt img i = (b : ℤ)))

/-- checkLighting's darkPixels: the sum of histogram bins 0..49. -/
def darkPixels (img : ImageBuffer) : ℕ :=
  Finset.sum (Finset.range 50) fun b => brightnessHistogram img b

/-- checkLighting's brightPixels: the sum of histogram bins 245..255. -/
def brightPixels (img : ImageBuffer) : ℕ :=
  Finset.sum (Finset.Icc 245 255) fun b => brightnessHistogram img b

/-- checkLighting's issue list, in push order. -/
def lightingIssues (img : ImageBuffer) : List String :=
  let avg := avgBrightness img
  let dynamicRange : ℤ := maxBrightness img - minBrightness img
  let darkPercentage : ℚ := (darkPixels img : ℚ) / ((img.width * img.height : ℕ) : ℚ)
  let brightPercentage : ℚ := (brightPixels img : ℚ) / ((img.width * img.height : ℕ) : ℚ)
  (if avg < 50 then ["Image is too dark"] else [])
    ++ (if 200 < avg then ["Image is too bright"] else [])
    ++ (if dynamicRange < 100 then ["Low contrast - poor lighting"] else [])
    ++ (if 0.3 < darkPercentage then ["Significant shadows detected"] else [])
    ++ (if 0.1 < brightPercentage then ["Overexposed regions detected"] else [])

/-- The lighting sub-record of a QualityCheck. -/
structure LightingResult where
  score : ℚ
  passed : Bool
  issues : List String
deriving DecidableEq, Repr

/-- QualityCheckEngine.checkLighting: brightness statistics, issue flags and
a penalty score. -/
def checkLighting (cfg : QualityThresholds) (img : ImageBuffer) : LightingResult :=
  let avg := avgBrightness img
  let dynamicRange : ℤ := maxBrightness img - minBrightness img
  let issues := lightingIssues img
  let score0 : ℚ := 1
    - |avg - 128| / 256 * 0.3
    - max 0 ((150 - (dynamicRange : ℚ)) / 150) * 0.3
    - (issues.length : ℚ) * 0.15
  let score := max 0 (min 1 score0)
  { score := (jsRound (score * 100) : ℚ) / 100
    passed := decide (cfg.minLightingScore ≤ score) && decide (issues.length ≤ 1)
    issues := issues }

/-- The perspective sub-record of a QualityCheck. -/
structure PerspectiveResult where
  distortion : ℝ
  corrected : Bool

noncomputable section

/-- QualityCheckEngine.checkPerspective: undetected calibrations or fewer
than 2 reference points give distortion 0 / corrected false; a ruler with at
least 3 reference points gets distortion cv * 45 from the coefficient of
variation of its tick spacings; every other detected marker keeps
distortion 0, which then passes the threshold comparison. -/
def checkPerspective (cfg : QualityThresholds) (calibrationData : CalibrationData) :
    PerspectiveResult :=
  if calibrationData.detected = false ∨ calibrationData.referencePoints.length < 2 then
    { distortion := 0, corrected := false }
  else
    let distortion : ℝ :=
      if calibrationData.markerType = .ruler ∧ 3 ≤ calibrationData.referencePoints.length then
        let spacings := consecutiveSpacings calibrationData.referencePoints
        let avgSpacing := spacings.sum / (spacings.length : ℝ)
        let variance := (spacings.map (fun s => (s - avgSpacing) ^ 2)).sum / (spacings.length : ℝ)
        let cv := Real.sqrt variance / avgSpacing
        cv * 45
      else 0
    let isCorrectable := decide (distortion ≤ (cfg.maxPerspectiveDistortion : ℝ))
    { distortion := ((jsRoundR (distortion * 10) : ℤ) : ℝ) / 10
      corrected := isCorrectable }

/-- The calibration sub-record of a QualityCheck. -/
structure CalibrationCheck where
  detected : Bool
  confidence : ℝ

/-- QualityCheck (src/types): the aggregate report of runQualityChecks. -/
structure QualityCheck where
  passed : Bool
  blur : BlurResult
  lighting : LightingResult
  calibration : CalibrationCheck
  perspective : PerspectiveResult

/-- QualityCheckEngine.runQualityChecks: run the three sub-checks and
aggregate the verdict. -/
def runQualityChecks (cfg : QualityThresholds) (imageData : ImageBuffer)
    (calibrationData : CalibrationData) : QualityCheck :=
  let blurResult := checkBlur cfg imageData
  let lightingResult := checkLighting cfg imageData
  let perspectiveResult := checkPerspective cfg calibrationData
  let allPassed :=
    blurResult.passed
      && lightingResult.passed
      && calibrationData.detected
      && decide ((cfg.minCalibrationConfidence : ℝ) ≤ calibrationData.confidence)
      && perspectiveResult.corrected
  { passed := allPassed
    blur := blurResult
    lighting := lightingResult
    calibration := { detected := calibrationData.detected
                     confidence := calibrationData.confidence }
    perspective := perspectiveResult }

end

/-! MeasurementEngine healing analytics.  The analytics only read each
assessment's capture time and stored area, and their arithmetic is
add/subtract/multiply/divide/round, so they are embedded at exact rational
type; capture times are epoch milliseconds (Date.getTime values). -/

/-- Trend classification of WoundAnalytics. -/
inductive Trend where
  | improving | stable | worsening
deriving DecidableEq, Repr

/-- The stored measurement fields the analytics read. -/
structure MeasurementRecord where
  area : ℚ
deriving DecidableEq, Repr

/-- WoundAssessment (src/types), restricted to the fields the analytics
read. -/
structure WoundAssessment where
  id : ℕ
  capturedAt : ℚ
  measurement : MeasurementRecord
deriving DecidableEq, Repr

instance : Inhabited WoundAssessment := ⟨⟨0, 0, ⟨0⟩⟩⟩

/-- HealingProgress (src/types): the per-assessment derived record. -/
structure HealingProgress where
  assessmentId : ℕ
  date : ℚ
  area : ℚ
  areaChange : ℚ
  areaChangePercent : ℚ
  healingRate : ℚ
  projectedHealingDate : Option ℚ
deriving DecidableEq, Repr

instance : Inhabited HealingProgress := ⟨⟨0, 0, 0, 0, 0, 0, none⟩⟩

/-- Milliseconds per day, as in MeasurementEngine.daysBetween. -/
def msPerDay : ℚ := 24 * 60 * 60 * 1000

/-- MeasurementEngine.daysBetween: Math.round of the day difference. -/
def daysBetween (date1 date2 : ℚ) : ℤ :=
  jsRound ((date2 - date1) / msPerDay)

/-- Stable insertion by capture time: a later assessment goes after equal
keys, as with JavaScript's stable Array.prototype.sort. -/
def assessInsert (a : WoundAssessment) : List WoundAssessment → List WoundAssessment
  | [] => [a]
  | b :: rest => if b.capturedAt ≤ a.capturedAt then b :: assessInsert a rest
                 else a :: b :: rest

/-- The chronological sort of calculateHealingProgress. -/
def sortByCapturedAt : List WoundAssessment → List WoundAssessment
  | [] => []
  | a :: rest => assessInsert a (sortByCapturedAt rest)

/-- The body of calculateHealingProgress's loop at index i over the sorted
assessments: area change, percentage change, healing rate and projected
healing date relative to the previous entry.  Date.setDate(getDate +
ceil(days)) is embedded as adding that many whole days of milliseconds. -/
def progressEntry (sorted : List WoundAssessment) (i : ℕ) : HealingProgress :=
  let current := sorted.getD i default
  let previous : Option WoundAssessment :=
    if 0 < i then some (sorted.getD (i - 1) default) else none
  let currentArea := current.measurement.area
  let previousArea := match previous with
    | some p => p.measurement.area
    | none => currentArea
  let areaChange := currentArea - previousArea
  let areaChangePercent := if 0 < previousArea then areaChange / previousArea * 100 else 0
  let healingRate := match previous with
    | some p =>
      let daysDiff := daysBetween p.capturedAt current.capturedAt
      if 0 < daysDiff then -areaChange / (daysDiff : ℚ) else 0
    | none => 0
  let projectedHealingDate : Option ℚ :=
    if 0 < healingRate ∧ 0 < currentArea then
      some (current.capturedAt + (⌈currentArea / healingRate⌉ : ℚ) * msPerDay)
    else none
  { assessmentId := current.id
    date := current.capturedAt
    area := currentArea
    areaChange := roundTo areaChange 2
    areaChangePercent := roundTo areaChangePercent 1
    healingRate := roundTo healingRate 3
    projectedHealingDate := projectedHealingDate }

/-- MeasurementEngine.calculateHealingProgress: per-assessment progress
records over the chronologically sorted assessments. -/
def calculateHealingProgress (assessments : List WoundAssessment) :
    List HealingProgress :=
  if assessments.length = 0 then []
  else
    let sorted := sortByCapturedAt assessments
    (List.range sorted.length).map (progressEntry sorted)

/-- WoundAnalytics (src/types). -/
structure WoundAnalytics where
  woundId : ℕ
  initialArea : ℚ
  currentArea : ℚ
  totalReduction : ℚ
  totalReductionPercent : ℚ
  averageHealingRate : ℚ
  healingVelocity : ℚ
  assessmentCount : ℕ
  daysSinceOnset : ℤ
  progressHistory : List HealingProgress
  trend : Trend
deriving DecidableEq, Repr

/-- MeasurementEngine.calculateWoundAnalytics.  The source reads the current
clock (new Date()) for daysSinceOnset; the embedding takes that clock value
as the explicit parameter now. -/
def calculateWoundAnalytics (woundId : ℕ) (assessments : List WoundAssessment)
    (onset : ℚ) (now : ℚ) : WoundAnalytics :=
  let progress := calculateHealingProgress assessments
  if progress.length = 0 then
    { woundId := woundId
      initialArea := 0, currentArea := 0
      totalReduction := 0, totalReductionPercent := 0
      averageHealingRate := 0, healingVelocity := 0
      assessmentCount := 0, daysSinceOnset := 0
      progressHistory := [], trend := .stable }
  else
    let initialArea := (progress.getD 0 default).area
    let currentArea := (progress.getD (progress.length - 1) default).area
    let totalReduction := initialArea - currentArea
    let totalReductionPercent :=
      if 0 < initialArea then totalReduction / initialArea * 100 else 0
    let healingRates := (progress.filter (fun p => 0 < p.healingRate)).map
      HealingProgress.healingRate
    let averageHealingRate :=
      if 0 < healingRates.length then healingRates.sum / (healingRates.length : ℚ) else 0
    let healingVelocity := averageHealingRate * 7
    let daysSinceOnset := daysBetween onset now
    let trend : Trend :=
      if 2 ≤ progress.length then
        let recentProgress := progress.drop (progress.length - 3)
        let avgChange := (recentProgress.map HealingProgress.areaChangePercent).sum
          / (recentProgress.length : ℚ)
        if avgChange < -5 then .improving
        else if 5 < avgChange then .worsening
        else .stable
      else .stable
    { woundId := woundId
      initialArea := roundTo initialArea 2
      currentArea := roundTo currentArea 2
      totalReduction := roundTo totalReduction 2
      totalReductionPercent := roundTo totalReductionPercent 1
      averageHealingRate := roundTo averageHealingRate 3
      healingVelocity := roundTo healingVelocity 2
      assessmentCount := assessments.length
      daysSinceOnset := daysSinceOnset
      progressHistory := progress
      trend := trend }

/-! Theorems settling the claims. -/

/-- C1: calculateMeasurements(segmentation, calibration) fails if and only
if calibration.detected = false or calibration.pixelsPerCm ≤ 0, and for
every calibration with detected = true and pixelsPerCm > 0 it returns a
WoundMeasurement without throwing. -/
theorem claim_C1 (seg : SegmentationResult) (cal : CalibrationData) :
    ((∃ e, calculateMeasurements seg cal = .error e) ↔
      (cal.detected = false ∨ cal.pixelsPerCm ≤ 0)) ∧
    (cal.detected = true → 0 < cal.pixelsPerCm →
      ∃ m, calculateMeasurements seg cal = .ok m) := by
  by_cases h : cal.detected = false ∨ cal.pixelsPerCm ≤ 0
  · constructor
    · simp only [calculateMeasurements, if_pos h]
      exact ⟨fun _ => h, fun _ => ⟨_, rfl⟩⟩
    · intro hdet hpos
      rcases h with h | h
      · rw [hdet] at h; exact absurd h (by simp)
      · exact absurd hpos (not_lt.mpr h)
  · constructor
    · simp only [calculateMeasurements, if_neg h]
      constructor
      · rintro ⟨e, he⟩; exact absurd he (by simp)
      · intro hc; exact absurd hc h
    · intro _ _
      simp only [calculateMeasurements, if_neg h]
      exact ⟨_, rfl⟩

/-- Witness for C1 at a concrete valid calibration: the measurement
succeeds. -/
theorem claim_C1_witness :
    ∃ m, calculateMeasurements ⟨⟨0, 0, []⟩, []⟩
      ⟨true, 1, 1, .ruler, []⟩ = .ok m :=
  (claim_C1 ⟨⟨0, 0, []⟩, []⟩ ⟨true, 1, 1, .ruler, []⟩).2 rfl one_pos

theorem roundToR_zero (d : ℕ) : roundToR 0 d = 0 := by
  have h0 : (⌊(0 : ℝ) * 10 ^ d + 1/2⌋ : ℤ) = 0 := by
    rw [zero_mul, zero_add]
    rw [Int.floor_eq_zero_iff]
    constructor <;> norm_num
  unfold roundToR jsRoundR
  rw [h0]
  norm_num

/-- C9: for every segmentation whose contour has fewer than 3 points,
calculateMeasurements under a valid calibration does not throw and returns
perimeter = 0, length = 0 and width = 0. -/
theorem claim_C9 (seg : SegmentationResult) (cal : CalibrationData)
    (hdet : cal.detected = true) (hpos : 0 < cal.pixelsPerCm)
    (hlen : seg.contour.length < 3) :
    ∃ m, calculateMeasurements seg cal = .ok m ∧
      m.perimeter = 0 ∧ m.length = 0 ∧ m.width = 0 := by
  have hcond : ¬ (cal.detected = false ∨ cal.pixelsPerCm ≤ 0) := by
    rintro (h | h)
    · rw [hdet] at h; exact absurd h (by simp)
    · exact absurd hpos (not_lt.mpr h)
  have heq : calculateMeasurements seg cal = .ok
      { area := roundToR ((calculateAreaFromMask seg.mask : ℝ) /
          (cal.pixelsPerCm * cal.pixelsPerCm)) 2
        length := roundToR ((calculateLengthWidth seg.contour).1 / cal.pixelsPerCm) 2
        width := roundToR ((calculateLengthWidth seg.contour).2 / cal.pixelsPerCm) 2
        perimeter := roundToR (calculatePerimeter seg.contour / cal.pixelsPerCm) 2 } := by
    simp only [calculateMeasurements, if_neg hcond]
  refine ⟨_, heq, ?_, ?_, ?_⟩
  · show roundToR (calculatePerimeter seg.contour / cal.pixelsPerCm) 2 = 0
    rw [calculatePerimeter, if_pos hlen, zero_div, roundToR_zero]
  · show roundToR ((calculateLengthWidth seg.contour).1 / cal.pixelsPerCm) 2 = 0
    rw [calculateLengthWidth, if_pos hlen]
    show roundToR (0 / cal.pixelsPerCm) 2 = 0
    rw [zero_div, roundToR_zero]
  · show roundToR ((calculateLengthWidth seg.contour).2 / cal.pixelsPerCm) 2 = 0
    rw [calculateLengthWidth, if_pos hlen]
    show roundToR (0 / cal.pixelsPerCm) 2 = 0
    rw [zero_div, roundToR_zero]

/-- Witness for C9 at an empty contour and a unit-scale calibration. -/
theorem claim_C9_witness :
    ∃ m, calculateMeasurements ⟨⟨0, 0, []⟩, []⟩ ⟨true, 1, 1, .ruler, []⟩ = .ok m ∧
      m.perimeter = 0 ∧ m.length = 0 ∧ m.width = 0 :=
  claim_C9 ⟨⟨0, 0, []⟩, []⟩ ⟨true, 1, 1, .ruler, []⟩ rfl one_pos (by decide)

/-- C2 counterexample: manualCalibration called with two equal points (a
case the claim quantifies over) returns detected = true with
pixelsPerCm = 0, violating the invariant pixelsPerCm > 0. -/
theorem claim_C2_counterexample :
    (manualCalibration ⟨0, 0⟩ ⟨0, 0⟩ 1).detected = true ∧
      ¬ (0 < (manualCalibration ⟨0, 0⟩ ⟨0, 0⟩ 1).pixelsPerCm) := by
  constructor
  · rfl
  · show ¬ (0 < distPx ⟨0, 0⟩ ⟨0, 0⟩ / ((1 : ℚ) : ℝ))
    simp [distPx]

/-- C2 as amended: every CalibrationResult produced by manualCalibration for
two distinct points and a positive distance satisfies detected = true and
pixelsPerCm > 0. -/
theorem claim_C2_amended (p1 p2 : Point) (d : ℚ) (hd : 0 < d) (hne : p1 ≠ p2) :
    (manualCalibration p1 p2 d).detected = true ∧
      0 < (manualCalibration p1 p2 d).pixelsPerCm := by
  refine ⟨rfl, ?_⟩
  show 0 < distPx p2 p1 / (d : ℝ)
  apply div_pos
  · unfold distPx
    apply Real.sqrt_pos.mpr
    have hcoord : p2.x ≠ p1.x ∨ p2.y ≠ p1.y := by
      by_contra hco
      push_neg at hco
      apply hne
      cases p1; cases p2
      simp only [Point.mk.injEq]
      exact ⟨hco.1.symm, hco.2.symm⟩
    rcases hcoord with h | h
    · have hx : ((p2.x - p1.x : ℚ) : ℝ) ≠ 0 := by
        exact_mod_cast sub_ne_zero.mpr h
      have hx2 : 0 < ((p2.x - p1.x : ℚ) : ℝ) ^ 2 :=
        lt_of_le_of_ne (sq_nonneg _) (Ne.symm (pow_ne_zero 2 hx))
      have hy2 : 0 ≤ ((p2.y - p1.y : ℚ) : ℝ) ^ 2 := sq_nonneg _
      linarith
    · have hy : ((p2.y - p1.y : ℚ) : ℝ) ≠ 0 := by
        exact_mod_cast sub_ne_zero.mpr h
      have hy2 : 0 < ((p2.y - p1.y : ℚ) : ℝ) ^ 2 :=
        lt_of_le_of_ne (sq_nonneg _) (Ne.symm (pow_ne_zero 2 hy))
      have hx2 : 0 ≤ ((p2.x - p1.x : ℚ) : ℝ) ^ 2 := sq_nonneg _
      linarith
  · exact_mod_cast hd

/-- Witness for the amended C2 at the points (0,0), (3,4). -/
theorem claim_C2_witness :
    (manualCalibration ⟨0, 0⟩ ⟨3, 4⟩ 1).detected = true ∧
      0 < (manualCalibration ⟨0, 0⟩ ⟨3, 4⟩ 1).pixelsPerCm :=
  claim_C2_amended ⟨0, 0⟩ ⟨3, 4⟩ 1 one_pos
    (by simp only [ne_eq, Point.mk.injEq, not_and]; intro h; norm_num at h)

/-- C6 counterexample: a detected circle calibration with 2 reference points
has a marker type other than ruler, yet the perspective sub-check returns
corrected = true, not false. -/
theorem claim_C6_counterexample :
    (⟨true, 10, 1, .circle, [⟨0, 0⟩, ⟨5, 0⟩]⟩ : CalibrationData).markerType ≠ .ruler ∧
    (checkPerspective defaultThresholds
      ⟨true, 10, 1, .circle, [⟨0, 0⟩, ⟨5, 0⟩]⟩).corrected = true := by
  have hg : ¬ ((true : Bool) = false ∨ ([⟨0, 0⟩, ⟨5, 0⟩] : List Point).length < 2) := by
    decide
  have hm : ¬ (MarkerType.circle = MarkerType.ruler ∧
      3 ≤ ([⟨0, 0⟩, ⟨5, 0⟩] : List Point).length) := by decide
  refine ⟨by decide, ?_⟩
  simp only [checkPerspective, if_neg hg, if_neg hm]
  rw [decide_eq_true_eq]
  norm_num [defaultThresholds]

/-- C6 as amended: whenever the marker type is not ruler or there are fewer
than 3 reference points, the perspective sub-check reports distortion 0; its
corrected flag is false exactly when the calibration is undetected or has
fewer than 2 reference points, and true otherwise (the zero distortion
passes the threshold). -/
theorem claim_C6_amended (cal : CalibrationData)
    (h : cal.markerType ≠ .ruler ∨ cal.referencePoints.length < 3) :
    (checkPerspective defaultThresholds cal).distortion = 0 ∧
    (checkPerspective defaultThresholds cal).corrected =
      (cal.detected && decide (2 ≤ cal.referencePoints.length)) := by
  by_cases h1 : cal.detected = false ∨ cal.referencePoints.length < 2
  · constructor
    · simp [checkPerspective, if_pos h1]
    · simp only [checkPerspective, if_pos h1]
      rcases h1 with h1 | h1
      · simp [h1]
      · have h2 : ¬ (2 ≤ cal.referencePoints.length) := not_le.mpr h1
        simp [h2]
  · have h2 : ¬ (cal.markerType = .ruler ∧ 3 ≤ cal.referencePoints.length) := by
      rcases h with h | h
      · exact fun hc => h hc.1
      · exact fun hc => absurd hc.2 (not_le.mpr h)
    have h1c := not_or.mp h1
    have hdet : cal.detected = true := by
      cases hb : cal.detected
      · exact absurd hb h1c.1
      · rfl
    have hlen : 2 ≤ cal.referencePoints.length := not_lt.mp h1c.2
    simp only [checkPerspective, if_neg h1, if_neg h2]
    constructor
    · show ((jsRoundR ((0 : ℝ) * 10) : ℤ) : ℝ) / 10 = 0
      have hf : (⌊(0 : ℝ) * 10 + 1/2⌋ : ℤ) = 0 := by
        rw [zero_mul, zero_add, Int.floor_eq_zero_iff]
        constructor <;> norm_num
      unfold jsRoundR
      rw [hf]
      norm_num
    · rw [hdet, Bool.true_and, decide_eq_decide]
      constructor
      · intro _; exact hlen
      · intro _; norm_num [defaultThresholds]

/-- Witness for the amended C6 at a detected circle calibration with two
reference points. -/
theorem claim_C6_witness :
    (checkPerspective defaultThresholds
      ⟨true, 10, 1, .circle, [⟨0, 0⟩, ⟨5, 0⟩]⟩).distortion = 0 ∧
    (checkPerspective defaultThresholds
        ⟨true, 10, 1, .circle, [⟨0, 0⟩, ⟨5, 0⟩]⟩).corrected =
      ((true : Bool) && decide (2 ≤ ([⟨0, 0⟩, ⟨5, 0⟩] : List Point).length)) :=
  claim_C6_amended ⟨true, 10, 1, .circle, [⟨0, 0⟩, ⟨5, 0⟩]⟩ (Or.inl (by decide))

theorem detectRulerFrom_detected_of_conf (parallelLines : List HoughLine)
    (ticks : List Point) (h : 0.8 < (detectRulerFrom parallelLines ticks).confidence) :
    (detectRulerFrom parallelLines ticks).detected = true := by
  unfold detectRulerFrom at h ⊢
  by_cases h1 : parallelLines.length < 2
  · rw [if_pos h1] at h
    exact absurd h (by norm_num [createFailedCalibration])
  · rw [if_neg h1] at h ⊢
    by_cases h2 : ticks.length < rulerMinTickCount
    · rw [if_pos h2] at h
      exact absurd h (by norm_num [createFailedCalibration])
    · rw [if_neg h2]

theorem detectCircleFrom_detected_of_conf (circles : List HoughCircle)
    (h : 0.8 < (detectCircleFrom circles).confidence) :
    (detectCircleFrom circles).detected = true := by
  unfold detectCircleFrom at h ⊢
  match circles with
  | [] => exact absurd h (by norm_num [createFailedCalibration])
  | c :: rest => rfl

theorem detectGridFrom_detected_of_conf (corners : List Point)
    (h : 0.8 < (detectGridFrom corners).confidence) :
    (detectGridFrom corners).detected = true := by
  unfold detectGridFrom at h ⊢
  by_cases h1 : (findGridPattern corners).length < gridMinCells * 4
  · rw [if_pos h1] at h
    exact absurd h (by norm_num [createFailedCalibration])
  · rw [if_neg h1]

theorem reduceStep_conf (a b : CalibrationData) :
    (confReduceStep a b).confidence = max a.confidence b.confidence := by
  unfold confReduceStep
  by_cases hc : b.confidence < a.confidence
  · rw [if_pos hc, max_eq_left (le_of_lt hc)]
  · rw [if_neg hc, max_eq_right (not_lt.mp hc)]

/-- C3: detectCalibration tries the ruler, circle and grid hypotheses in
that fixed order, returns the first whose confidence exceeds 0.8, and
otherwise returns the candidate with the highest confidence.  The detector
results are functions of the intermediate features each hypothesis
extracts: the ruler's parallel lines and ticks, the circle candidates, and
the grid corners. -/
theorem claim_C3 (parallelLines : List HoughLine) (ticks : List Point)
    (circles : List HoughCircle) (corners : List Point) :
    (0.8 < (detectRulerFrom parallelLines ticks).confidence →
      detectCalibration (detectRulerFrom parallelLines ticks)
        (detectCircleFrom circles) (detectGridFrom corners) =
        detectRulerFrom parallelLines ticks) ∧
    ((detectRulerFrom parallelLines ticks).confidence ≤ 0.8 →
      0.8 < (detectCircleFrom circles).confidence →
      detectCalibration (detectRulerFrom parallelLines ticks)
        (detectCircleFrom circles) (detectGridFrom corners) =
        detectCircleFrom circles) ∧
    ((detectRulerFrom parallelLines ticks).confidence ≤ 0.8 →
      (detectCircleFrom circles).confidence ≤ 0.8 →
      0.8 < (detectGridFrom corners).confidence →
      detectCalibration (detectRulerFrom parallelLines ticks)
        (detectCircleFrom circles) (detectGridFrom corners) =
        detectGridFrom corners) ∧
    ((detectRulerFrom parallelLines ticks).confidence ≤ 0.8 →
      (detectCircleFrom circles).confidence ≤ 0.8 →
      (detectGridFrom corners).confidence ≤ 0.8 →
      (detectCalibration (detectRulerFrom parallelLines ticks)
          (detectCircleFrom circles) (detectGridFrom corners) =
            detectRulerFrom parallelLines ticks ∨
        detectCalibration (detectRulerFrom parallelLines ticks)
          (detectCircleFrom circles) (detectGridFrom corners) =
            detectCircleFrom circles ∨
        detectCalibration (detectRulerFrom parallelLines ticks)
          (detectCircleFrom circles) (detectGridFrom corners) =
            detectGridFrom corners) ∧
      (detectCalibration (detectRulerFrom parallelLines ticks)
          (detectCircleFrom circles) (detectGridFrom corners)).confidence =
        max (max (detectRulerFrom parallelLines ticks).confidence
          (detectCircleFrom circles).confidence)
          (detectGridFrom corners).confidence) := by
  set r := detectRulerFrom parallelLines ticks with hr
  set c := detectCircleFrom circles with hc
  set g := detectGridFrom corners with hg
  refine ⟨?_, ?_, ?_, ?_⟩
  · intro h
    have hd : r.detected = true := detectRulerFrom_detected_of_conf _ _ h
    unfold detectCalibration
    rw [if_pos ⟨hd, h⟩]
  · intro h1 h2
    have hd : c.detected = true := detectCircleFrom_detected_of_conf _ h2
    unfold detectCalibration
    rw [if_neg (fun hcon => absurd hcon.2 (not_lt.mpr h1)), if_pos ⟨hd, h2⟩]
  · intro h1 h2 h3
    have hd : g.detected = true := detectGridFrom_detected_of_conf _ h3
    unfold detectCalibration
    rw [if_neg (fun hcon => absurd hcon.2 (not_lt.mpr h1)),
      if_neg (fun hcon => absurd hcon.2 (not_lt.mpr h2)), if_pos ⟨hd, h3⟩]
  · intro h1 h2 h3
    unfold detectCalibration
    rw [if_neg (fun hcon => absurd hcon.2 (not_lt.mpr h1)),
      if_neg (fun hcon => absurd hcon.2 (not_lt.mpr h2)),
      if_neg (fun hcon => absurd hcon.2 (not_lt.mpr h3))]
    constructor
    · unfold confReduceStep
      by_cases hrc : c.confidence < r.confidence
      · rw [if_pos hrc]
        by_cases hgg : g.confidence < r.confidence
        · rw [if_pos hgg]; exact Or.inl rfl
        · rw [if_neg hgg]; exact Or.inr (Or.inr rfl)
      · rw [if_neg hrc]
        by_cases hgg : g.confidence < c.confidence
        · rw [if_pos hgg]; exact Or.inr (Or.inl rfl)
        · rw [if_neg hgg]; exact Or.inr (Or.inr rfl)
    · rw [reduceStep_conf, reduceStep_conf]

theorem distPx_horiz (x1 x2 y : ℚ) (h : x1 ≤ x2) :
    distPx ⟨x2, y⟩ ⟨x1, y⟩ = ((x2 - x1 : ℚ) : ℝ) := by
  unfold distPx
  show Real.sqrt (((x2 - x1 : ℚ) : ℝ) ^ 2 + ((y - y : ℚ) : ℝ) ^ 2) = _
  rw [sub_self]
  norm_num
  exact Real.sqrt_sq (by exact_mod_cast sub_nonneg.mpr h)

/-- Parallel-line cluster for the C3 witness: two horizontal lines. -/
def rulerLinesW : List HoughLine := [⟨0, 0, 30⟩, ⟨10, 0, 30⟩]

/-- Tick marks for the C3 witness: five collinear ticks with spacings
21, 19, 21, 19, so mean 20, variance 1 and cv 1/20, giving confidence
1 - 2/20 = 0.9. -/
def rulerTicksW : List Point := [⟨0, 0⟩, ⟨21, 0⟩, ⟨40, 0⟩, ⟨61, 0⟩, ⟨80, 0⟩]

/-- Circle candidate for the C3 witness, with circularity 0.85. -/
def circleCandsW : List HoughCircle := [⟨50, 50, 10, 0.85⟩]

theorem rulerTicksW_spacings :
    consecutiveSpacings rulerTicksW = [(21 : ℝ), 19, 21, 19] := by
  have hr4 : List.range (rulerTicksW.length - 1) = [0, 1, 2, 3] := by decide
  unfold consecutiveSpacings
  rw [hr4]
  simp only [List.map_cons, List.map_nil, rulerTicksW, List.getD_cons_zero,
    List.getD_cons_succ]
  rw [distPx_horiz 0 21 0 (by norm_num), distPx_horiz 21 40 0 (by norm_num),
    distPx_horiz 40 61 0 (by norm_num), distPx_horiz 61 80 0 (by norm_num)]
  norm_num

theorem rulerConfW : (detectRulerFrom rulerLinesW rulerTicksW).confidence = 0.9 := by
  have hlen2 : ¬ (rulerLinesW.length < 2) := by decide
  have hlen5 : ¬ (rulerTicksW.length < rulerMinTickCount) := by decide
  have hconf : calculateTickConfidence rulerTicksW = 0.9 := by
    have hlen3 : ¬ (rulerTicksW.length < 3) := by decide
    simp only [calculateTickConfidence, if_neg hlen3, rulerTicksW_spacings]
    norm_num [Real.sqrt_one]
  simp only [detectRulerFrom, if_neg hlen2, if_neg hlen5]
  exact hconf

/-- Witness for C3: with a ruler hypothesis of confidence 0.9 and a circle
hypothesis of confidence 0.85, the detector returns the ruler result. -/
theorem claim_C3_witness :
    detectCalibration (detectRulerFrom rulerLinesW rulerTicksW)
        (detectCircleFrom circleCandsW) (detectGridFrom []) =
      detectRulerFrom rulerLinesW rulerTicksW ∧
    (detectRulerFrom rulerLinesW rulerTicksW).confidence = 0.9 ∧
    (detectCircleFrom circleCandsW).confidence = 0.85 := by
  refine ⟨(claim_C3 rulerLinesW rulerTicksW circleCandsW []).1 ?_, rulerConfW, ?_⟩
  · rw [rulerConfW]; norm_num
  · simp [detectCircleFrom, circleCandsW]

theorem roundTo_zero (d : ℕ) : roundTo 0 d = 0 := by
  have h0 : jsRound ((0 : ℚ) * 10 ^ d) = 0 := by
    unfold jsRound
    rw [zero_mul, zero_add, Int.floor_eq_zero_iff]
    constructor <;> norm_num
  unfold roundTo
  rw [h0]
  norm_num

theorem progressEntry_zero_percent (sorted : List WoundAssessment) :
    (progressEntry sorted 0).areaChangePercent = 0 := by
  unfold progressEntry
  simp only [lt_irrefl, if_false, ite_false, if_neg (lt_irrefl 0)]
  show roundTo (if 0 < (sorted.getD 0 default).measurement.area then
    ((sorted.getD 0 default).measurement.area - (sorted.getD 0 default).measurement.area)
      / (sorted.getD 0 default).measurement.area * 100 else 0) 1 = 0
  rw [sub_self, zero_div, zero_mul, ite_self, roundTo_zero]

/-- Modelled from the spec wording of C5: average the areaChangePercent of
up to the last 3 progress entries; improving below -5, worsening above 5,
stable otherwise.  Used only to compare the code's trend against the
claim's formula. -/
def specTrendOf (progress : List HealingProgress) : Trend :=
  let recentProgress := progress.drop (progress.length - 3)
  let avgChange := (recentProgress.map HealingProgress.areaChangePercent).sum
    / (recentProgress.length : ℚ)
  if avgChange < -5 then .improving
  else if 5 < avgChange then .worsening
  else .stable

/-- Assessments with areas 10, 8, 6 on consecutive days. -/
def exImproving : List WoundAssessment :=
  [⟨1, 0, ⟨10⟩⟩, ⟨2, 86400000, ⟨8⟩⟩, ⟨3, 172800000, ⟨6⟩⟩]

/-- Assessments with areas 10, 11, 12 on consecutive days. -/
def exWorsening : List WoundAssessment :=
  [⟨1, 0, ⟨10⟩⟩, ⟨2, 86400000, ⟨11⟩⟩, ⟨3, 172800000, ⟨12⟩⟩]

/-- Assessments with areas 10, 10.1, 9.9 on consecutive days. -/
def exStable : List WoundAssessment :=
  [⟨1, 0, ⟨10⟩⟩, ⟨2, 86400000, ⟨10.1⟩⟩, ⟨3, 172800000, ⟨9.9⟩⟩]

/-- C5: the trend classification of calculateWoundAnalytics equals the
average of the areaChangePercent of up to the last 3 progress entries,
classified as improving below -5, worsening above 5, stable otherwise; in
particular the area sequence [10, 8, 6] gives improving, [10, 11, 12] gives
worsening and [10, 10.1, 9.9] gives stable. -/
theorem claim_C5 :
    (∀ (woundId : ℕ) (assessments : List WoundAssessment) (onset now : ℚ),
      (calculateWoundAnalytics woundId assessments onset now).trend =
        specTrendOf (calculateHealingProgress assessments)) ∧
    (calculateWoundAnalytics 1 exImproving 0 172800000).trend = .improving ∧
    (calculateWoundAnalytics 1 exWorsening 0 172800000).trend = .worsening ∧
    (calculateWoundAnalytics 1 exStable 0 172800000).trend = .stable := by
  refine ⟨?_, by with_unfolding_all rfl, by with_unfolding_all rfl, by with_unfolding_all rfl⟩
  intro woundId assessments onset now
  by_cases hp : (calculateHealingProgress assessments).length = 0
  · have hnil : calculateHealingProgress assessments = [] := List.length_eq_zero.mp hp
    simp only [calculateWoundAnalytics, if_pos hp]
    rw [hnil]
    show Trend.stable = specTrendOf []
    unfold specTrendOf
    norm_num
  · simp only [calculateWoundAnalytics, if_neg hp]
    by_cases h2 : 2 ≤ (calculateHealingProgress assessments).length
    · rw [if_pos h2]
      rfl
    · rw [if_neg h2]
      have hane : assessments.length ≠ 0 := by
        intro h0
        exact hp (by simp [calculateHealingProgress, h0])
      have h1 : (calculateHealingProgress assessments).length = 1 := by omega
      have hsl : (sortByCapturedAt assessments).length = 1 := by
        unfold calculateHealingProgress at h1
        rw [if_neg hane] at h1
        simpa using h1
      have hform : calculateHealingProgress assessments =
          [progressEntry (sortByCapturedAt assessments) 0] := by
        unfold calculateHealingProgress
        rw [if_neg hane]
        show List.map (progressEntry (sortByCapturedAt assessments))
          (List.range (sortByCapturedAt assessments).length) = _
        rw [hsl]
        rfl
      rw [hform]
      unfold specTrendOf
      simp only [List.length_cons, List.length_nil, List.drop, List.map_cons,
        List.map_nil, List.sum_cons, List.sum_nil, progressEntry_zero_percent]
      norm_num

/-- A perfectly uniform RGBA image: every byte of every pixel is c. -/
def uniformImage (w h c : ℕ) : ImageBuffer :=
  ⟨w, h, List.replicate (4 * (w * h)) c⟩

theorem uniformImage_getD (w h c : ℕ) (j : ℕ) (hj : j < 4 * (w * h)) :
    (uniformImage w h c).data.getD j 0 = c := by
  show (List.replicate (4 * (w * h)) c).getD j 0 = c
  rw [List.getD_eq_getElem?_getD, List.getElem?_replicate]
  simp [hj]

theorem uniformImage_grayscale (w h c : ℕ) (i : ℕ) (hi : i < w * h) :
    grayscaleAt (uniformImage w h c) i = (c : ℚ) := by
  unfold grayscaleAt
  rw [uniformImage_getD w h c (i * 4) (by omega),
    uniformImage_getD w h c (i * 4 + 1) (by omega),
    uniformImage_getD w h c (i * 4 + 2) (by omega)]
  have hc : (0.299 : ℚ) * c + 0.587 * c + 0.114 * c = (0.299 + 0.587 + 0.114) * c := by
    ring
  rw [hc]
  norm_num

theorem uniformImage_laplacian (w h c : ℕ) (idx : ℕ) :
    laplacianAt (uniformImage w h c) idx = 0 := by
  unfold laplacianAt
  by_cases hint : 0 < idx % (uniformImage w h c).width ∧
      idx % (uniformImage w h c).width + 1 < (uniformImage w h c).width ∧
      0 < idx / (uniformImage w h c).width ∧
      idx / (uniformImage w h c).width + 1 < (uniformImage w h c).height
  · rw [if_pos hint]
    have hw : (uniformImage w h c).width = w := rfl
    have hh : (uniformImage w h c).height = h := rfl
    rw [hw] at hint ⊢
    rw [hh] at hint
    obtain ⟨hx0, hxw, hy0, hyh⟩ := hint
    set x := idx % w with hxdef
    set y := idx / w with hydef
    have hyb : y + 1 ≤ h - 1 := by omega
    have h1 : (y - 1) * w + x < w * h := by
      have : y - 1 ≤ y := Nat.sub_le _ _
      calc (y - 1) * w + x < (y - 1) * w + w := by omega
        _ = (y - 1 + 1) * w := by ring
        _ ≤ h * w := by
            apply Nat.mul_le_mul_right
            omega
        _ = w * h := Nat.mul_comm _ _
    have h2 : y * w + (x - 1) < w * h := by
      calc y * w + (x - 1) < y * w + w := by omega
        _ = (y + 1) * w := by ring
        _ ≤ h * w := by apply Nat.mul_le_mul_right; omega
        _ = w * h := Nat.mul_comm _ _
    have h3 : y * w + x < w * h := by
      calc y * w + x < y * w + w := by omega
        _ = (y + 1) * w := by ring
        _ ≤ h * w := by apply Nat.mul_le_mul_right; omega
        _ = w * h := Nat.mul_comm _ _
    have h4 : y * w + (x + 1) < w * h := by
      calc y * w + (x + 1) < y * w + w := by omega
        _ = (y + 1) * w := by ring
        _ ≤ h * w := by apply Nat.mul_le_mul_right; omega
        _ = w * h := Nat.mul_comm _ _
    have h5 : (y + 1) * w + x < w * h := by
      calc (y + 1) * w + x < (y + 1) * w + w := by omega
        _ = (y + 1 + 1) * w := by ring
        _ ≤ h * w := by apply Nat.mul_le_mul_right; omega
        _ = w * h := Nat.mul_comm _ _
    rw [uniformImage_grayscale w h c _ h1, uniformImage_grayscale w h c _ h2,
      uniformImage_grayscale w h c _ h3, uniformImage_grayscale w h c _ h4,
      uniformImage_grayscale w h c _ h5]
    ring
  · rw [if_neg hint]

theorem uniformImage_nonzeroLapIdx (w h c : ℕ) :
    nonzeroLapIdx (uniformImage w h c) = [] := by
  unfold nonzeroLapIdx
  apply List.filter_eq_nil_iff.mpr
  intro a _
  simp [uniformImage_laplacian w h c a]

/-- C10: on a perfectly uniform image every Laplacian response is zero, so
the count of nonzero responses that checkBlur divides by is 0; the mean and
variance become NaN (none in the embedding) through the unguarded division,
the returned blur score is NaN rather than a number in [0,1], and the check
reports passed = false only because NaN >= threshold is false. -/
theorem claim_C10 (w h c : ℕ) :
    nonzeroLapCount (uniformImage w h c) = 0 ∧
    (checkBlur defaultThresholds (uniformImage w h c)).score = none ∧
    (checkBlur defaultThresholds (uniformImage w h c)).passed = false := by
  have hidx := uniformImage_nonzeroLapIdx w h c
  have hcount : nonzeroLapCount (uniformImage w h c) = 0 := by
    rw [nonzeroLapCount, hidx]
    rfl
  refine ⟨hcount, ?_, ?_⟩ <;>
    simp [checkBlur, hidx, hcount, jdiv, jminC, jround100, jgeB]

theorem grayscaleAt_nonneg (img : ImageBuffer) (i : ℕ) : 0 ≤ grayscaleAt img i := by
  unfold grayscaleAt
  positivity

theorem brightnessAt_nonneg (img : ImageBuffer) (i : ℕ) : 0 ≤ brightnessAt img i := by
  unfold brightnessAt jsRound
  apply Int.le_floor.mpr
  have h := grayscaleAt_nonneg img i
  push_cast
  linarith

theorem darkPixels_eq (img : ImageBuffer) :
    darkPixels img = Finset.card ((Finset.range (img.width * img.height)).filter
      (fun i => brightnessAt img i < 50)) := by
  unfold darkPixels brightnessHistogram
  rw [← Finset.card_biUnion]
  · congr 1
    ext i
    simp only [Finset.mem_biUnion, Finset.mem_range, Finset.mem_filter]
    constructor
    · rintro ⟨b, hb, hi, hbe⟩
      exact ⟨hi, by rw [hbe]; exact_mod_cast hb⟩
    · rintro ⟨hi, hlt⟩
      have h0 := brightnessAt_nonneg img i
      refine ⟨(brightnessAt img i).toNat, by omega, hi, ?_⟩
      rw [Int.toNat_of_nonneg h0]
  · intro x _ y _ hxy
    rw [Finset.disjoint_left]
    intro i hi1 hi2
    rw [Finset.mem_filter] at hi1 hi2
    exact hxy (by exact_mod_cast hi1.2.symm.trans hi2.2)

theorem dark_fraction_of_avg30 (img : ImageBuffer)
    (hN : 0 < img.width * img.height) (havg : avgBrightness img = 30) :
    (0.3 : ℚ) < (darkPixels img : ℚ) / ((img.width * img.height : ℕ) : ℚ) := by
  have hNQ : (0 : ℚ) < ((img.width * img.height : ℕ) : ℚ) := by exact_mod_cast hN
  have hNne : ((img.width * img.height : ℕ) : ℚ) ≠ 0 := hNQ.ne'
  have htot : (totalBrightness img : ℚ) =
      30 * ((img.width * img.height : ℕ) : ℚ) := by
    rw [avgBrightness] at havg
    push_cast at havg
    have hne2 : ((img.width : ℚ)) * (img.height : ℚ) ≠ 0 := by
      push_cast at hNne
      exact hNne
    field_simp at havg
    push_cast
    linarith
  have hsplit := Finset.sum_filter_add_sum_filter_not
    (Finset.range (img.width * img.height)) (fun i => brightnessAt img i < 50)
    (fun i => brightnessAt img i)
  have hDsum : 0 ≤ Finset.sum ((Finset.range (img.width * img.height)).filter
      (fun i => brightnessAt img i < 50)) fun i => brightnessAt img i :=
    Finset.sum_nonneg fun i _ => brightnessAt_nonneg img i
  have hDcsum : (50 : ℤ) * (((Finset.range (img.width * img.height)).filter
      (fun i => ¬ brightnessAt img i < 50)).card : ℤ) ≤
      Finset.sum ((Finset.range (img.width * img.height)).filter
        (fun i => ¬ brightnessAt img i < 50)) fun i => brightnessAt img i := by
    calc (50 : ℤ) * (((Finset.range (img.width * img.height)).filter
          (fun i => ¬ brightnessAt img i < 50)).card : ℤ)
        = Finset.sum ((Finset.range (img.width * img.height)).filter
            (fun i => ¬ brightnessAt img i < 50)) (fun _ => (50 : ℤ)) := by
          rw [Finset.sum_const, nsmul_eq_mul, mul_comm]
      _ ≤ _ := Finset.sum_le_sum fun i hi => by
          rw [Finset.mem_filter] at hi
          exact not_lt.mp hi.2
  have hcards : ((Finset.range (img.width * img.height)).filter
        (fun i => brightnessAt img i < 50)).card +
      ((Finset.range (img.width * img.height)).filter
        (fun i => ¬ brightnessAt img i < 50)).card = img.width * img.height := by
    have h := Finset.filter_card_add_filter_neg_card_eq_card
      (s := Finset.range (img.width * img.height))
      (p := fun i => brightnessAt img i < 50)
    rwa [Finset.card_range] at h
  have hz : 50 * ((img.width * img.height : ℤ) -
      (((Finset.range (img.width * img.height)).filter
        (fun i => brightnessAt img i < 50)).card : ℤ)) ≤ totalBrightness img := by
    have hc2 : (((Finset.range (img.width * img.height)).filter
        (fun i => ¬ brightnessAt img i < 50)).card : ℤ) =
        (img.width * img.height : ℤ) -
        (((Finset.range (img.width * img.height)).filter
          (fun i => brightnessAt img i < 50)).card : ℤ) := by
      have := hcards
      omega
    rw [← hc2]
    calc 50 * (((Finset.range (img.width * img.height)).filter
          (fun i => ¬ brightnessAt img i < 50)).card : ℤ)
        ≤ Finset.sum ((Finset.range (img.width * img.height)).filter
            (fun i => ¬ brightnessAt img i < 50)) (fun i => brightnessAt img i) := hDcsum
      _ ≤ totalBrightness img := by
          rw [totalBrightness, ← hsplit]
          linarith
  have hzQ : (50 : ℚ) * (((img.width * img.height : ℕ) : ℚ) -
      ((((Finset.range (img.width * img.height)).filter
        (fun i => brightnessAt img i < 50)).card : ℕ) : ℚ)) ≤
      (totalBrightness img : ℚ) := by
    have hcast : ((50 * ((img.width * img.height : ℤ) -
        (((Finset.range (img.width * img.height)).filter
          (fun i => brightnessAt img i < 50)).card : ℤ)) : ℤ) : ℚ) ≤
        ((totalBrightness img : ℤ) : ℚ) := Int.cast_le.mpr hz
    push_cast at hcast ⊢
    linarith
  rw [darkPixels_eq, lt_div_iff₀ hNQ]
  have hgoal : (0.3 : ℚ) * ((img.width * img.height : ℕ) : ℚ) <
      ((((Finset.range (img.width * img.height)).filter
        (fun i => brightnessAt img i < 50)).card : ℕ) : ℚ) := by
    linarith [hzQ, htot, hNQ]
  exact_mod_cast hgoal

theorem lightingIssues_ge_two (img : ImageBuffer)
    (hN : 0 < img.width * img.height) (havg : avgBrightness img = 30) :
    2 ≤ (lightingIssues img).length := by
  have hdark : avgBrightness img < 50 := by rw [havg]; norm_num
  have hshadow := dark_fraction_of_avg30 img hN havg
  simp only [lightingIssues]
  rw [if_pos hdark, if_pos hshadow]
  simp only [List.length_append, List.length_cons, List.length_nil]
  split_ifs <;> norm_num

theorem checkLighting_fail (cfg : QualityThresholds) (img : ImageBuffer)
    (h2 : 2 ≤ (lightingIssues img).length) :
    (checkLighting cfg img).passed = false := by
  have hn : ¬ ((lightingIssues img).length ≤ 1) := by omega
  simp only [checkLighting]
  simp [hn]

/-- C4: the aggregate verdict of runQualityChecks equals the conjunction of
the blur pass, the lighting pass, the calibration being detected with
confidence at least the threshold, and the perspective corrected flag; and
any image of average brightness 30 fails the aggregate (it is both too dark
and shadowed, so the lighting sub-check fails on its issue count). -/
theorem claim_C4 :
    (∀ (cfg : QualityThresholds) (img : ImageBuffer) (cal : CalibrationData),
      (runQualityChecks cfg img cal).passed =
        ((checkBlur cfg img).passed && (checkLighting cfg img).passed &&
          cal.detected &&
          decide ((cfg.minCalibrationConfidence : ℝ) ≤ cal.confidence) &&
          (checkPerspective cfg cal).corrected)) ∧
    (∀ (cfg : QualityThresholds) (img : ImageBuffer) (cal : CalibrationData),
      avgBrightness img = 30 → (runQualityChecks cfg img cal).passed = false) := by
  constructor
  · intro cfg img cal
    rfl
  · intro cfg img cal havg
    have hN : 0 < img.width * img.height := by
      by_contra h0
      push_neg at h0
      have h00 : img.width * img.height = 0 := by omega
      rw [avgBrightness, h00] at havg
      norm_num at havg
    have hlp := checkLighting_fail cfg img (lightingIssues_ge_two img hN havg)
    simp [runQualityChecks, hlp]

/-- A 3x3 image of average brightness exactly 30: eight pixels of value 29
around a center pixel of value 38 (sum 270 over 9 pixels). -/
def img9 : ImageBuffer :=
  ⟨3, 3, [29, 29, 29, 255, 29, 29, 29, 255, 29, 29, 29, 255,
          29, 29, 29, 255, 38, 38, 38, 255, 29, 29, 29, 255,
          29, 29, 29, 255, 29, 29, 29, 255, 29, 29, 29, 255]⟩

/-- Witness for C4 at the concrete average-brightness-30 image. -/
theorem claim_C4_witness :
    avgBrightness img9 = 30 ∧
    (runQualityChecks defaultThresholds img9 (createFailedCalibration .ruler)).passed
      = false := by
  have havg : avgBrightness img9 = 30 := by with_unfolding_all rfl
  exact ⟨havg, claim_C4.2 defaultThresholds img9 (createFailedCalibration .ruler) havg⟩

/-- Input falsifying C8: the point (1, 100) is extreme (the triangle
(0,0), (2,0), (1,100) it spans has cross product 200, i.e. area 100), but
the unsorted Graham scan drops it. -/
def pexC8 : List Point := [⟨0, 0⟩, ⟨2, 0⟩, ⟨1, 100⟩, ⟨3, 1⟩]

theorem atan2_zero_two : atan2 (0 : ℝ) (2 : ℝ) = 0 := by
  unfold atan2
  rw [if_pos (by norm_num : (0 : ℝ) < 2)]
  rw [zero_div, Real.arctan_zero]

theorem rectCand0_width :
    (rectCandidate [⟨0, 0⟩, ⟨2, 0⟩, ⟨3, 1⟩] 0).width = 3 := by
  simp only [rectCandidate, List.getD_cons_zero, List.getD_cons_succ, List.length_cons,
    List.length_nil]
  norm_num
  rw [atan2_zero_two]
  simp [rotatePoint, neg_zero, Real.cos_zero, Real.sin_zero]
  norm_num [min_def, max_def]

theorem rectCand0_height :
    (rectCandidate [⟨0, 0⟩, ⟨2, 0⟩, ⟨3, 1⟩] 0).height = 1 := by
  simp only [rectCandidate, List.getD_cons_zero, List.getD_cons_succ, List.length_cons,
    List.length_nil]
  norm_num
  rw [atan2_zero_two]
  simp [rotatePoint, neg_zero, Real.cos_zero, Real.sin_zero]

theorem minAreaStep_bound (hull : List Point) (i : ℕ) (m B : ℝ) (r : RectWH)
    (hmr : r.width * r.height = m) (hmB : m ≤ B) :
    ∃ m2 r2, minAreaStep hull (some (m, r)) i = some (m2, r2) ∧
      r2.width * r2.height = m2 ∧ m2 ≤ B := by
  unfold minAreaStep
  by_cases hlt : (rectCandidate hull i).width * (rectCandidate hull i).height < m
  · refine ⟨_, _, ?_, rfl, le_of_lt (lt_of_lt_of_le hlt hmB)⟩
    simp only [if_pos hlt]
  · exact ⟨m, r, by simp only [if_neg hlt], hmr, hmB⟩

/-- C8 fails on the code: on pexC8 the computed hull drops the extreme point
(1, 100) (the polar sort acts on a discarded slice() copy), so the
rotating-calipers rectangle over that hull has area at most 3 — its first
candidate, the axis-aligned box of the 3 remaining hull points, already has
area 3 — while the true convex hull of the input contains the triangle
(0,0), (2,0), (1,100) of area 100 (cross product 200).  The claimed
rect-area >= hull-area therefore fails. -/
theorem claim_C8_eval :
    convexHull pexC8 = [⟨0, 0⟩, ⟨2, 0⟩, ⟨3, 1⟩] ∧
    (⟨1, 100⟩ : Point) ∈ pexC8 ∧
    crossProduct ⟨0, 0⟩ ⟨2, 0⟩ ⟨1, 100⟩ = 200 ∧
    (minAreaRect (convexHull pexC8)).width *
      (minAreaRect (convexHull pexC8)).height ≤ 3 := by
  have hh : convexHull pexC8 = [⟨0, 0⟩, ⟨2, 0⟩, ⟨3, 1⟩] := by with_unfolding_all rfl
  refine ⟨hh, by exact .tail _ (.tail _ (.head _)), by with_unfolding_all rfl, ?_⟩
  rw [hh]
  have harea0 : (rectCandidate [⟨0, 0⟩, ⟨2, 0⟩, ⟨3, 1⟩] 0).width *
      (rectCandidate [⟨0, 0⟩, ⟨2, 0⟩, ⟨3, 1⟩] 0).height = 3 := by
    rw [rectCand0_width, rectCand0_height]
    norm_num
  have hr : List.range ([⟨0, 0⟩, ⟨2, 0⟩, ⟨3, 1⟩] : List Point).length = [0, 1, 2] := by
    decide
  have h0 : minAreaStep [⟨0, 0⟩, ⟨2, 0⟩, ⟨3, 1⟩] none 0 =
      some ((rectCandidate [⟨0, 0⟩, ⟨2, 0⟩, ⟨3, 1⟩] 0).width *
        (rectCandidate [⟨0, 0⟩, ⟨2, 0⟩, ⟨3, 1⟩] 0).height,
        rectCandidate [⟨0, 0⟩, ⟨2, 0⟩, ⟨3, 1⟩] 0) := rfl
  obtain ⟨m1, r1, hs1, hm1, hb1⟩ := minAreaStep_bound [⟨0, 0⟩, ⟨2, 0⟩, ⟨3, 1⟩] 1 _ 3 _ rfl
    (le_of_eq harea0)
  obtain ⟨m2, r2, hs2, hm2, hb2⟩ := minAreaStep_bound [⟨0, 0⟩, ⟨2, 0⟩, ⟨3, 1⟩] 2 m1 3 r1
    hm1 hb1
  have hfold : (List.range ([⟨0, 0⟩, ⟨2, 0⟩, ⟨3, 1⟩] : List Point).length).foldl
      (minAreaStep [⟨0, 0⟩, ⟨2, 0⟩, ⟨3, 1⟩]) none = some (m2, r2) := by
    rw [hr]
    show (minAreaStep [⟨0, 0⟩, ⟨2, 0⟩, ⟨3, 1⟩]
      (minAreaStep [⟨0, 0⟩, ⟨2, 0⟩, ⟨3, 1⟩]
        (minAreaStep [⟨0, 0⟩, ⟨2, 0⟩, ⟨3, 1⟩] none 0) 1) 2) = some (m2, r2)
    rw [h0, hs1, hs2]
  have hlen : ¬ (([⟨0, 0⟩, ⟨2, 0⟩, ⟨3, 1⟩] : List Point).length < 3) := by decide
  simp only [minAreaRect, if_neg hlen, hfold]
  exact hm2.le.trans hb2

/-! Idempotence of the hull computation (claim C7).  The invariant: in the
top-first scan stack, every adjacent triple (a below b below c) is a strict
left turn, 0 < cross a b c.  A stack satisfying the invariant is re-scanned
without a single pop, so running the hull on its own output is the
identity. -/

/-- Every adjacent triple of the (top-first) stack is a strict left turn. -/
def GoodStack : List Point → Prop
  | c :: b :: a :: rest => 0 < crossProduct a b c ∧ GoodStack (b :: a :: rest)
  | _ => True

theorem GoodStack_tail (x : Point) (s : List Point) (h : GoodStack (x :: s)) :
    GoodStack s := by
  match s with
  | [] => trivial
  | [_] => trivial
  | b :: a :: r => exact h.2

theorem GoodStack_append_right (xs s : List Point) (h : GoodStack (xs ++ s)) :
    GoodStack s := by
  induction xs with
  | nil => exact h
  | cons x xs ih => exact ih (GoodStack_tail x _ h)

theorem popWhile_cons2 (c b a : Point) (t : List Point) :
    popWhile c (b :: a :: t) =
      if crossProduct a b c ≤ 0 then popWhile c (a :: t) else b :: a :: t := rfl

theorem popWhile_subset (c : Point) (s : List Point) (x : Point)
    (hx : x ∈ popWhile c s) : x ∈ s := by
  induction s with
  | nil => exact hx
  | cons b tail ih =>
    match tail with
    | [] => exact hx
    | a :: t =>
      rw [popWhile_cons2] at hx
      by_cases hc : crossProduct a b c ≤ 0
      · rw [if_pos hc] at hx
        exact List.mem_cons_of_mem b (ih hx)
      · rwa [if_neg hc] at hx

theorem popWhile_ne_nil (c : Point) (s : List Point) (hs : s ≠ []) :
    popWhile c s ≠ [] := by
  induction s with
  | nil => exact absurd rfl hs
  | cons b tail ih =>
    match tail with
    | [] => exact List.cons_ne_nil b []
    | a :: t =>
      rw [popWhile_cons2]
      by_cases hc : crossProduct a b c ≤ 0
      · rw [if_pos hc]
        exact ih (List.cons_ne_nil a t)
      · rw [if_neg hc]
        exact List.cons_ne_nil b (a :: t)

theorem popWhile_getLast (c : Point) (s : List Point) (hs : s ≠ []) :
    (popWhile c s).getLast? = s.getLast? := by
  induction s with
  | nil => exact absurd rfl hs
  | cons b tail ih =>
    match tail with
    | [] => rfl
    | a :: t =>
      rw [popWhile_cons2]
      by_cases hc : crossProduct a b c ≤ 0
      · rw [if_pos hc, ih (List.cons_ne_nil a t), List.getLast?_cons_cons]
      · rw [if_neg hc]

theorem popWhile_good (c : Point) (s : List Point) (hs : GoodStack s) :
    GoodStack (popWhile c s) := by
  induction s with
  | nil => trivial
  | cons b tail ih =>
    match tail with
    | [] => trivial
    | a :: t =>
      rw [popWhile_cons2]
      by_cases hc : crossProduct a b c ≤ 0
      · rw [if_pos hc]
        exact ih (GoodStack_tail b _ hs)
      · rwa [if_neg hc]

theorem popWhile_stops (c : Point) (s : List Point) :
    ∀ b a t, popWhile c s = b :: a :: t → 0 < crossProduct a b c := by
  induction s with
  | nil => intro b a t h; exact absurd h (by simp [popWhile])
  | cons x tail ih =>
    match tail with
    | [] =>
      intro b a t h
      exact absurd h (by simp [popWhile])
    | y :: t0 =>
      intro b a t h
      rw [popWhile_cons2] at h
      by_cases hc : crossProduct y x c ≤ 0
      · rw [if_pos hc] at h
        exact ih b a t h
      · rw [if_neg hc] at h
        obtain ⟨rfl, rfl, rfl⟩ : x = b ∧ y = a ∧ t0 = t := by
          injection h with h1 h2
          injection h2 with h2 h3
          exact ⟨h1, h2, h3⟩
        exact lt_of_not_le hc

theorem push_good (c : Point) (s : List Point) (hs : GoodStack s) :
    GoodStack (c :: popWhile c s) := by
  have hgood := popWhile_good c s hs
  match hpw : popWhile c s with
  | [] => trivial
  | [_] => trivial
  | b :: a :: t =>
    refine ⟨popWhile_stops c s b a t hpw, ?_⟩
    rw [← hpw]
    exact hgood

theorem scanLoop_good (pts : List Point) :
    ∀ s, GoodStack s → GoodStack (scanLoop s pts) := by
  induction pts with
  | nil => intro s hs; exact hs
  | cons c rest ih =>
    intro s hs
    exact ih (c :: popWhile c s) (push_good c s hs)

theorem scanLoop_ne_nil (pts : List Point) :
    ∀ s, s ≠ [] → scanLoop s pts ≠ [] := by
  induction pts with
  | nil => intro s hs; exact hs
  | cons c rest ih =>
    intro s _
    exact ih (c :: popWhile c s) (List.cons_ne_nil c _)

theorem scanLoop_getLast (pts : List Point) :
    ∀ s, s ≠ [] → (scanLoop s pts).getLast? = s.getLast? := by
  induction pts with
  | nil => intro s _; rfl
  | cons c rest ih =>
    intro s hs
    show (scanLoop (c :: popWhile c s) rest).getLast? = s.getLast?
    rw [ih (c :: popWhile c s) (List.cons_ne_nil c _)]
    obtain ⟨y, t, hyt⟩ := List.exists_cons_of_ne_nil (popWhile_ne_nil c s hs)
    rw [hyt, List.getLast?_cons_cons, ← hyt]
    exact popWhile_getLast c s hs

theorem scanLoop_subset (pts : List Point) :
    ∀ s x, x ∈ scanLoop s pts → x ∈ s ∨ x ∈ pts := by
  induction pts with
  | nil => intro s x hx; exact Or.inl hx
  | cons c rest ih =>
    intro s x hx
    rcases ih (c :: popWhile c s) x hx with h | h
    · rcases List.mem_cons.mp h with h | h
      · exact Or.inr (h ▸ List.mem_cons_self c rest)
      · exact Or.inl (popWhile_subset c s x h)
    · exact Or.inr (List.mem_cons_of_mem c h)

theorem scanLoop_noop (qs : List Point) :
    ∀ S, GoodStack (qs.reverse ++ S) → scanLoop S qs = qs.reverse ++ S := by
  induction qs with
  | nil => intro S _; rfl
  | cons c rest ih =>
    intro S hgood
    have hre : (c :: rest).reverse ++ S = rest.reverse ++ (c :: S) := by simp
    rw [hre] at hgood
    show scanLoop (c :: popWhile c S) rest = _
    have hpop : popWhile c S = S := by
      match S with
      | [] => rfl
      | [b] => rfl
      | b :: a :: t =>
        have hx : GoodStack (c :: b :: a :: t) :=
          GoodStack_append_right rest.reverse _ hgood
        rw [popWhile_cons2, if_neg (not_le.mpr hx.1)]
    rw [hpop, ih (c :: S) hgood, hre]

theorem lexLt_irrefl (a : Point) : ¬ lexLt a a := by
  simp [lexLt]

theorem lexLt_trans {a b c : Point} (h1 : lexLt a b) (h2 : lexLt b c) :
    lexLt a c := by
  rcases h1 with h1 | ⟨h1e, h1x⟩ <;> rcases h2 with h2 | ⟨h2e, h2x⟩
  · exact Or.inl (lt_trans h1 h2)
  · exact Or.inl (h2e ▸ h1)
  · exact Or.inl (h1e ▸ h2)
  · exact Or.inr ⟨h1e.trans h2e, lt_trans h1x h2x⟩

theorem lowestIdx_aux (ps : List Point) (n : ℕ) :
    ((List.range n).foldl
        (fun lo i => if lexLt (ps.getD i ⟨0, 0⟩) (ps.getD lo ⟨0, 0⟩) then i else lo) 0 = 0 ∨
      (List.range n).foldl
        (fun lo i => if lexLt (ps.getD i ⟨0, 0⟩) (ps.getD lo ⟨0, 0⟩) then i else lo) 0 < n) ∧
    ∀ j < n, ¬ lexLt (ps.getD j ⟨0, 0⟩)
      (ps.getD ((List.range n).foldl
        (fun lo i => if lexLt (ps.getD i ⟨0, 0⟩) (ps.getD lo ⟨0, 0⟩) then i else lo) 0) ⟨0, 0⟩) := by
  induction n with
  | zero => exact ⟨Or.inl rfl, fun j hj => absurd hj (Nat.not_lt_zero j)⟩
  | succ n ih =>
    obtain ⟨ihb, ihm⟩ := ih
    rw [List.range_succ, List.foldl_append]
    simp only [List.foldl_cons, List.foldl_nil]
    set lo := (List.range n).foldl
      (fun lo i => if lexLt (ps.getD i ⟨0, 0⟩) (ps.getD lo ⟨0, 0⟩) then i else lo) 0 with hlo
    by_cases hc : lexLt (ps.getD n ⟨0, 0⟩) (ps.getD lo ⟨0, 0⟩)
    · rw [if_pos hc]
      refine ⟨Or.inr (Nat.lt_succ_self n), fun j hj hcon => ?_⟩
      rcases Nat.lt_succ_iff_lt_or_eq.mp hj with hj | rfl
      · exact ihm j hj (lexLt_trans hcon hc)
      · exact lexLt_irrefl _ hcon
    · rw [if_neg hc]
      refine ⟨?_, fun j hj hcon => ?_⟩
      · rcases ihb with h | h
        · exact Or.inl h
        · exact Or.inr (Nat.lt_succ_of_lt h)
      · rcases Nat.lt_succ_iff_lt_or_eq.mp hj with hj | rfl
        · exact ihm j hj hcon
        · exact hc hcon

theorem lowestIdx_lt (ps : List Point) (h : 0 < ps.length) :
    lowestIdx ps < ps.length := by
  have := (lowestIdx_aux ps ps.length).1
  unfold lowestIdx
  rcases this with h0 | hlt
  · rw [h0]; exact h
  · exact hlt

theorem lowestIdx_min (ps : List Point) (j : ℕ) (hj : j < ps.length) :
    ¬ lexLt (ps.getD j ⟨0, 0⟩) (ps.getD (lowestIdx ps) ⟨0, 0⟩) :=
  (lowestIdx_aux ps ps.length).2 j hj

theorem foldl_lowest_zero (ps : List Point) (n : ℕ)
    (h : ∀ j < n, ¬ lexLt (ps.getD j ⟨0, 0⟩) (ps.getD 0 ⟨0, 0⟩)) :
    (List.range n).foldl
      (fun lo i => if lexLt (ps.getD i ⟨0, 0⟩) (ps.getD lo ⟨0, 0⟩) then i else lo) 0 = 0 := by
  induction n with
  | zero => rfl
  | succ n ih =>
    rw [List.range_succ, List.foldl_append,
      ih (fun j hj => h j (Nat.lt_succ_of_lt hj))]
    exact if_neg (h n (Nat.lt_succ_self n))

theorem lowestIdx_eq_zero (ps : List Point)
    (h : ∀ j < ps.length, ¬ lexLt (ps.getD j ⟨0, 0⟩) (ps.getD 0 ⟨0, 0⟩)) :
    lowestIdx ps = 0 :=
  foldl_lowest_zero ps ps.length h

theorem swapHead_length (ps : List Point) (i : ℕ) :
    (swapHead ps i).length = ps.length := by
  simp [swapHead]

theorem swapHead_zero (ps : List Point) : swapHead ps 0 = ps := by
  match ps with
  | [] => rfl
  | x :: t => rfl

theorem getD_mem (ps : List Point) (i : ℕ) (hi : i < ps.length) :
    ps.getD i ⟨0, 0⟩ ∈ ps := by
  rw [List.getD_eq_getElem ps ⟨0, 0⟩ hi]
  exact List.getElem_mem hi

theorem swapHead_mem (ps : List Point) (i : ℕ) (hi : i < ps.length) (x : Point)
    (hx : x ∈ swapHead ps i) : x ∈ ps := by
  unfold swapHead at hx
  rcases List.mem_or_eq_of_mem_set hx with hx | rfl
  · rcases List.mem_or_eq_of_mem_set hx with hx | rfl
    · exact hx
    · exact getD_mem ps i hi
  · exact getD_mem ps 0 (by omega)

theorem swapHead_getD_zero (ps : List Point) (i : ℕ) (hi : i < ps.length) :
    (swapHead ps i).getD 0 ⟨0, 0⟩ = ps.getD i ⟨0, 0⟩ := by
  by_cases hi0 : i = 0
  · subst hi0
    rw [swapHead_zero]
  · have h0 : 0 < ps.length := by omega
    unfold swapHead
    have hlen1 : 0 < (ps.set 0 (ps.getD i ⟨0, 0⟩)).length := by
      rw [List.length_set]; exact h0
    have hlen2 : 0 < ((ps.set 0 (ps.getD i ⟨0, 0⟩)).set i (ps.getD 0 ⟨0, 0⟩)).length := by
      rw [List.length_set, List.length_set]; exact h0
    rw [List.getD_eq_getElem _ ⟨0, 0⟩ hlen2, List.getElem_set, if_neg hi0,
      List.getElem_set, if_pos rfl]

/-- C7: the convex hull computation is idempotent: applying convexHull to
its own output yields the same list of points (in particular the same set)
as applying it once.  This holds even though the source's polar-angle sort
is a no-op: the scan output always has strictly-left-turning adjacent
triples and keeps the lexicographically lowest point first, so a second
scan never pops. -/
theorem claim_C7 (points : List Point) :
    convexHull (convexHull points) = convexHull points := by
  by_cases h3 : points.length < 3
  · have h : convexHull points = points := by rw [convexHull, if_pos h3]
    rw [h, h]
  · have h3' : 3 ≤ points.length := not_lt.mp h3
    have hpos : 0 < points.length := by omega
    have hlolt := lowestIdx_lt points hpos
    have hslen : (swapHead points (lowestIdx points)).length = points.length :=
      swapHead_length points _
    obtain ⟨p0, s1, hs1⟩ := List.exists_cons_of_ne_nil
      (show swapHead points (lowestIdx points) ≠ [] by
        intro h0
        rw [h0] at hslen
        simp at hslen
        omega)
    obtain ⟨p1, rest, hs2⟩ := List.exists_cons_of_ne_nil
      (show s1 ≠ [] by
        intro h0
        rw [h0] at hs1
        rw [hs1] at hslen
        simp at hslen
        omega)
    subst hs2
    have hQ : convexHull points = (scanLoop [p1, p0] rest).reverse := by
      rw [convexHull, if_neg h3, hs1]
    have hp0 : p0 = points.getD (lowestIdx points) ⟨0, 0⟩ := by
      have h := swapHead_getD_zero points (lowestIdx points) hlolt
      rw [hs1] at h
      simpa using h
    have hgood : GoodStack (scanLoop [p1, p0] rest) :=
      scanLoop_good rest [p1, p0] trivial
    have hlast : (scanLoop [p1, p0] rest).getLast? = some p0 := by
      rw [scanLoop_getLast rest [p1, p0] (by simp)]
      rfl
    have hmin : ∀ x ∈ scanLoop [p1, p0] rest, ¬ lexLt x p0 := by
      intro x hx
      have hxs : x ∈ swapHead points (lowestIdx points) := by
        rw [hs1]
        rcases scanLoop_subset rest [p1, p0] x hx with h | h
        · rcases List.mem_cons.mp h with rfl | h
          · exact List.mem_cons_of_mem _ (List.mem_cons_self _ _)
          · rcases List.mem_cons.mp h with rfl | h
            · exact List.mem_cons_self _ _
            · exact absurd h (List.not_mem_nil x)
        · exact List.mem_cons_of_mem _ (List.mem_cons_of_mem _ h)
      have hxp : x ∈ points := swapHead_mem points (lowestIdx points) hlolt x hxs
      obtain ⟨j, hj, hje⟩ := List.mem_iff_getElem.mp hxp
      have hm := lowestIdx_min points j hj
      rw [List.getD_eq_getElem points ⟨0, 0⟩ hj, hje] at hm
      rw [hp0]
      exact hm
    by_cases hq3 : (scanLoop [p1, p0] rest).reverse.length < 3
    · rw [hQ, convexHull, if_pos hq3]
    · obtain ⟨q0, t1, ht1⟩ := List.exists_cons_of_ne_nil
        (show (scanLoop [p1, p0] rest).reverse ≠ [] by
          intro h0
          rw [h0] at hq3
          simp at hq3)
      obtain ⟨q1, qrest, ht2⟩ := List.exists_cons_of_ne_nil
        (show t1 ≠ [] by
          intro h0
          rw [h0] at ht1
          rw [ht1] at hq3
          simp at hq3)
      subst ht2
      have hq0 : q0 = p0 := by
        have h1 : (scanLoop [p1, p0] rest).reverse.head? =
            (scanLoop [p1, p0] rest).getLast? := List.head?_reverse _
        rw [ht1, hlast] at h1
        simpa using h1
      have hminQ : ∀ j < (scanLoop [p1, p0] rest).reverse.length,
          ¬ lexLt ((scanLoop [p1, p0] rest).reverse.getD j ⟨0, 0⟩)
            ((scanLoop [p1, p0] rest).reverse.getD 0 ⟨0, 0⟩) := by
        intro j hj
        have hx : (scanLoop [p1, p0] rest).reverse.getD j ⟨0, 0⟩ ∈
            (scanLoop [p1, p0] rest).reverse := getD_mem _ j hj
        have hx2 := List.mem_reverse.mp hx
        have h0 : (scanLoop [p1, p0] rest).reverse.getD 0 ⟨0, 0⟩ = p0 := by
          rw [ht1]
          simpa using hq0
        rw [h0]
        exact hmin _ hx2
      have hlo0 : lowestIdx ((scanLoop [p1, p0] rest).reverse) = 0 :=
        lowestIdx_eq_zero _ hminQ
      have hQ2 : convexHull ((scanLoop [p1, p0] rest).reverse) =
          (scanLoop [q1, q0] qrest).reverse := by
        rw [convexHull, if_neg hq3, hlo0, swapHead_zero, ht1]
      have hrev : scanLoop [p1, p0] rest = qrest.reverse ++ [q1, q0] := by
        have h := congrArg List.reverse ht1
        rw [List.reverse_reverse] at h
        rw [h]
        simp
      have hnoop : scanLoop [q1, q0] qrest = qrest.reverse ++ [q1, q0] :=
        scanLoop_noop qrest [q1, q0] (by rw [← hrev]; exact hgood)
      rw [hQ, hQ2, hnoop, ← hrev]

end WoundDim
